import Mathlib

/-!
# AudioRecordingApp: the capture / playback engines and the waveform codec

A shallow embedding of `app/src/main/cpp/audio_recorder.cpp`.

* Samples (`short`) are integers; a well-formed sample lies in `[-32768, 32767]`.
* Bytes are natural numbers below 256.
* `size_t` is 64 bits wide and `uint32_t` / `uint16_t` conversions reduce modulo
  `2^32` / `2^16`.  (With a 32-bit `size_t` the header fields come out the same:
  they are reduced modulo `2^32` in the end.)  The host is little-endian (all
  Android ABIs), so `reinterpret_cast<const char*>(&v)` exposes the least
  significant byte first.
* OpenSL ES is external: every call the code issues is recorded as an `Effect`,
  and what the hardware answers is an input of the operation that asks.
* A dereference of a null interface pointer is undefined behaviour and is
  `none`.
* The model is sequential: one operation or one callback runs at a time.
-/

/-! ## Hardware and file-system vocabulary -/

/-- A non-null OpenSL ES object or interface pointer. -/
abbrev Handle := Nat

/-- Interface identifiers passed to `GetInterface`. -/
inductive InterfaceId where
  | SL_IID_RECORD
  | SL_IID_PLAY
  | SL_IID_ANDROIDSIMPLEBUFFERQUEUE
  deriving DecidableEq, Repr

/-- Everything the engines do to the outside world, in program order. -/
inductive Effect where
  | createAudioRecorder (engine : Handle)
  | createOutputMix (engine : Handle)
  | createAudioPlayer (engine : Handle) (outputMix : Handle)
  | realize (obj : Handle)
  | getInterface (obj : Handle) (iid : InterfaceId)
  | registerCallback (queue : Handle)
  | enqueueRecordBuffer (queue : Handle)
  | enqueueSamples (queue : Handle) (flagAtIssue : Bool) (offset : Nat) (samples : List Int)
  | setRecordState (itf : Handle) (recording : Bool)
  | setPlayState (itf : Handle) (playing : Bool)
  | destroy (obj : Handle)
  | writeFile (path : String) (bytes : List Nat)
  deriving DecidableEq, Repr

/-- Answer of a hardware call that has an out-parameter: whether the result is
`SL_RESULT_SUCCESS`, and the pointer the call leaves in the out-parameter. -/
structure HwOut where
  ok : Bool
  out : Option Handle
  deriving DecidableEq, Repr

/-- Answers of the hardware to the calls of `AudioRecorder::startRecording`. -/
structure RecorderStartHw where
  createRecorder : HwOut
  realize : Bool
  getRecord : HwOut
  getQueue : HwOut
  registerCallback : Bool
  enqueue : Bool
  setRecording : Bool
  deriving DecidableEq, Repr

/-- Answers of the hardware to the calls of `AudioPlayer::startPlayback`. -/
structure PlayerStartHw where
  createMix : HwOut
  realizeMix : Bool
  createPlayer : HwOut
  realizePlayer : Bool
  getPlay : HwOut
  getQueue : HwOut
  registerCallback : Bool
  setPlaying : Bool
  deriving DecidableEq, Repr

/-! ## Machine integers and raw bytes -/

/-- Width of `size_t`. -/
def SIZE_BITS : Nat := 64

/-- Conversion of an unsigned value to `size_t`. -/
def toSize (n : Nat) : Nat := n % 2 ^ SIZE_BITS

/-- Conversion of an unsigned value to `uint32_t`. -/
def toU32 (n : Nat) : Nat := n % 2 ^ 32

/-- Conversion of an unsigned value to `uint16_t`. -/
def toU16 (n : Nat) : Nat := n % 2 ^ 16

/-- The first `n` bytes of the object representation of the unsigned value `v`
on a little-endian host. -/
def rawBytes : Nat → Nat → List Nat
  | 0, _ => []
  | n + 1, v => v % 256 :: rawBytes n (v / 256)

/-- The first `n` bytes of a string literal, as `file.write(lit, n)` sends them. -/
def literalBytes (lit : String) (n : Nat) : List Nat :=
  (lit.toList.map Char.toNat).take n

/-- Object representation of one `short` (two's complement, two bytes). -/
def shortBytes (x : Int) : List Nat := rawBytes 2 (x % 65536).toNat

/-- Object representation of a contiguous array of `short`. -/
def samplesBytes : List Int → List Nat
  | [] => []
  | x :: xs => shortBytes x ++ samplesBytes xs

/-- The `short` whose object representation is the byte pair `lo`, `hi`. -/
def shortOfBytes (lo hi : Nat) : Int :=
  let u := (lo + 256 * hi) % 65536
  if u < 32768 then (u : Int) else (u : Int) - 65536

/-! ## AudioRecorder -/

/-- Fields of `class AudioRecorder`.  The scratch array `recordBuffer` is filled
by the hardware and is handed to the callback as an argument. -/
structure AudioRecorder where
  engineObject : Option Handle
  engineEngine : Option Handle
  recorderObject : Option Handle
  recorderRecord : Option Handle
  recorderBufferQueue : Option Handle
  isRecording : Bool
  audioBuffer : List Int
  outputFilePath : String
  deriving DecidableEq, Repr

def AudioRecorder.SAMPLE_RATE : Nat := 44100
def AudioRecorder.CHANNELS : Nat := 1
def AudioRecorder.BITS_PER_SAMPLE : Nat := 16
def AudioRecorder.BUFFER_SIZE : Nat := 4096

/-- Embedding of `AudioRecorder::writeWavHeader`: the bytes sent to the file. -/
def AudioRecorder.writeWavHeader (dataSize : Nat) : List Nat :=
  let fileSize := toU32 (toSize (36 + toSize (dataSize * 2)))
  let byteRate :=
    toU32 (AudioRecorder.SAMPLE_RATE * AudioRecorder.CHANNELS * AudioRecorder.BITS_PER_SAMPLE / 8)
  let blockAlign := toU16 (AudioRecorder.CHANNELS * AudioRecorder.BITS_PER_SAMPLE / 8)
  let subchunk2Size := toU32 (toSize (dataSize * 2))
  let subchunk1Size := toU32 16
  let audioFormat := toU16 1
  let numChannels := toU16 AudioRecorder.CHANNELS
  let sampleRate := toU32 AudioRecorder.SAMPLE_RATE
  let bitsPerSample := toU16 AudioRecorder.BITS_PER_SAMPLE
  literalBytes "RIFF" 4 ++ rawBytes 4 fileSize ++ literalBytes "WAVE" 4
    ++ literalBytes "fmt " 4 ++ rawBytes 4 subchunk1Size ++ rawBytes 2 audioFormat
    ++ rawBytes 2 numChannels ++ rawBytes 4 sampleRate ++ rawBytes 4 byteRate
    ++ rawBytes 2 blockAlign ++ rawBytes 2 bitsPerSample
    ++ literalBytes "data" 4 ++ rawBytes 4 subchunk2Size

/-- Bytes that `AudioRecorder::saveToFile` sends to an opened file: the header
for `audioBuffer.size()` samples, then the storage of the vector.  (The vector
lies in memory, so the byte count `size() * sizeof(short)` covers all of it.) -/
def AudioRecorder.fileImage (audioBuffer : List Int) : List Nat :=
  AudioRecorder.writeWavHeader audioBuffer.length ++ samplesBytes audioBuffer

/-- Embedding of `AudioRecorder::saveToFile`.  `canOpen` is whether
`file.is_open()` holds after the `ofstream` is constructed. -/
def AudioRecorder.saveToFile (s : AudioRecorder) (canOpen : Bool) : List Effect :=
  if s.audioBuffer.isEmpty then []
  else if !canOpen then []
  else [Effect.writeFile s.outputFilePath (AudioRecorder.fileImage s.audioBuffer)]

/-- Embedding of `AudioRecorder::startRecording`. -/
def AudioRecorder.startRecording (s : AudioRecorder) (filePath : String)
    (hw : RecorderStartHw) : Option (Bool × AudioRecorder × List Effect) :=
  if s.isRecording then some (false, s, [])
  else
    let s0 := { s with outputFilePath := filePath, audioBuffer := [] }
    match s0.engineEngine with
    | none => none
    | some eng =>
      let s1 := { s0 with recorderObject := hw.createRecorder.out }
      let e1 := [Effect.createAudioRecorder eng]
      if !hw.createRecorder.ok then some (false, s1, e1)
      else
        match s1.recorderObject with
        | none => none
        | some obj =>
          let e2 := e1 ++ [Effect.realize obj]
          if !hw.realize then some (false, s1, e2)
          else
            let s3 := { s1 with recorderRecord := hw.getRecord.out }
            let e3 := e2 ++ [Effect.getInterface obj InterfaceId.SL_IID_RECORD]
            if !hw.getRecord.ok then some (false, s3, e3)
            else
              let s4 := { s3 with recorderBufferQueue := hw.getQueue.out }
              let e4 := e3 ++ [Effect.getInterface obj InterfaceId.SL_IID_ANDROIDSIMPLEBUFFERQUEUE]
              if !hw.getQueue.ok then some (false, s4, e4)
              else
                match s4.recorderBufferQueue with
                | none => none
                | some q =>
                  let e5 := e4 ++ [Effect.registerCallback q]
                  if !hw.registerCallback then some (false, s4, e5)
                  else
                    let e6 := e5 ++ [Effect.enqueueRecordBuffer q]
                    if !hw.enqueue then some (false, s4, e6)
                    else
                      match s4.recorderRecord with
                      | none => none
                      | some rec =>
                        let e7 := e6 ++ [Effect.setRecordState rec true]
                        if !hw.setRecording then some (false, s4, e7)
                        else some (true, { s4 with isRecording := true }, e7)

/-- Embedding of `AudioRecorder::stopRecording`.  `hwStop` is the result of
`SetRecordState(SL_RECORDSTATE_STOPPED)`, which the code does not look at. -/
def AudioRecorder.stopRecording (s : AudioRecorder) (hwStop : Bool) (canOpen : Bool) :
    Bool × AudioRecorder × List Effect :=
  if !s.isRecording then (false, s, [])
  else
    let s1 := { s with isRecording := false }
    let _result := hwStop
    let e1 := match s1.recorderRecord with
      | some rec => [Effect.setRecordState rec false]
      | none => []
    let e2 := e1 ++ AudioRecorder.saveToFile s1 canOpen
    match s1.recorderObject with
    | some obj =>
      (true, { s1 with recorderObject := none, recorderRecord := none,
                       recorderBufferQueue := none }, e2 ++ [Effect.destroy obj])
    | none => (true, s1, e2)

/-- Embedding of `AudioRecorder::isCurrentlyRecording`. -/
def AudioRecorder.isCurrentlyRecording (s : AudioRecorder) : Bool := s.isRecording

/-- Embedding of `AudioRecorder::processAudioData`, the body of the recorder
callback.  `recordBuffer` is the content of the scratch array when it fires. -/
def AudioRecorder.processAudioData (s : AudioRecorder) (recordBuffer : List Int) :
    AudioRecorder × List Effect :=
  if !s.isRecording then (s, [])
  else
    let s1 := { s with
      audioBuffer := s.audioBuffer ++ recordBuffer.take AudioRecorder.BUFFER_SIZE }
    match s1.recorderBufferQueue with
    | some q => if s1.isRecording then (s1, [Effect.enqueueRecordBuffer q]) else (s1, [])
    | none => (s1, [])

/-- The hardware thread firing the recorder callback once per scratch-buffer
content of `bufs`, in order. -/
def AudioRecorder.runCallbacks : AudioRecorder → List (List Int) → AudioRecorder × List Effect
  | s, [] => (s, [])
  | s, b :: bs =>
    let r := s.processAudioData b
    let r2 := AudioRecorder.runCallbacks r.1 bs
    (r2.1, r.2 ++ r2.2)

/-! ## AudioPlayer -/

/-- Fields of `class AudioPlayer`. -/
structure AudioPlayer where
  engineObject : Option Handle
  engineEngine : Option Handle
  playerObject : Option Handle
  playerPlay : Option Handle
  playerBufferQueue : Option Handle
  isPlaying : Bool
  audioData : List Int
  currentPosition : Nat
  deriving DecidableEq, Repr

def AudioPlayer.SAMPLE_RATE : Nat := 44100
def AudioPlayer.CHANNELS : Nat := 1
def AudioPlayer.BUFFER_SIZE : Nat := 4096

/-- The read loop of `AudioPlayer::loadAudioFile`: each successful two-byte
`file.read` pushes one sample; a read that gets fewer than two bytes ends it. -/
def AudioPlayer.readSamples : List Nat → List Int
  | lo :: hi :: rest => shortOfBytes lo hi :: AudioPlayer.readSamples rest
  | _ => []

/-- Embedding of `AudioPlayer::loadAudioFile`.  `file` is the content of the
file at the path, or `none` when it cannot be opened. -/
def AudioPlayer.loadAudioFile (p : AudioPlayer) (file : Option (List Nat)) :
    Bool × AudioPlayer :=
  match file with
  | none => (false, p)
  | some bytes =>
    let audioData := AudioPlayer.readSamples (bytes.drop 44)
    (!audioData.isEmpty, { p with audioData := audioData, currentPosition := 0 })

/-- Embedding of `AudioPlayer::enqueueBuffer`, also the body of the player
callback. -/
def AudioPlayer.enqueueBuffer (p : AudioPlayer) : AudioPlayer × List Effect :=
  if !p.isPlaying || decide (p.currentPosition ≥ p.audioData.length) then
    ({ p with isPlaying := false }, [])
  else
    let remainingSamples := p.audioData.length - p.currentPosition
    let samplesToPlay := min AudioPlayer.BUFFER_SIZE remainingSamples
    let r : AudioPlayer × List Effect :=
      match p.playerBufferQueue with
      | some q =>
        if samplesToPlay > 0 then
          ({ p with currentPosition := p.currentPosition + samplesToPlay },
           [Effect.enqueueSamples q p.isPlaying p.currentPosition
              ((p.audioData.drop p.currentPosition).take samplesToPlay)])
        else (p, [])
      | none => (p, [])
    if r.1.currentPosition ≥ r.1.audioData.length then
      ({ r.1 with isPlaying := false }, r.2)
    else r

/-- Embedding of `AudioPlayer::startPlayback`. -/
def AudioPlayer.startPlayback (p : AudioPlayer) (hw : PlayerStartHw) :
    Option (Bool × AudioPlayer × List Effect) :=
  if p.isPlaying || p.audioData.isEmpty then some (false, p, [])
  else
    match p.engineEngine with
    | none => none
    | some eng =>
      let e1 := [Effect.createOutputMix eng]
      if !hw.createMix.ok then some (false, p, e1)
      else
        match hw.createMix.out with
        | none => none
        | some mix =>
          let e2 := e1 ++ [Effect.realize mix]
          if !hw.realizeMix then some (false, p, e2)
          else
            let p3 := { p with playerObject := hw.createPlayer.out }
            let e3 := e2 ++ [Effect.createAudioPlayer eng mix]
            if !hw.createPlayer.ok then some (false, p3, e3)
            else
              match p3.playerObject with
              | none => none
              | some obj =>
                let e4 := e3 ++ [Effect.realize obj]
                if !hw.realizePlayer then some (false, p3, e4)
                else
                  let p5 := { p3 with playerPlay := hw.getPlay.out }
                  let e5 := e4 ++ [Effect.getInterface obj InterfaceId.SL_IID_PLAY]
                  if !hw.getPlay.ok then some (false, p5, e5)
                  else
                    let p6 := { p5 with playerBufferQueue := hw.getQueue.out }
                    let e6 := e5 ++
                      [Effect.getInterface obj InterfaceId.SL_IID_ANDROIDSIMPLEBUFFERQUEUE]
                    if !hw.getQueue.ok then some (false, p6, e6)
                    else
                      match p6.playerBufferQueue with
                      | none => none
                      | some q =>
                        let e7 := e6 ++ [Effect.registerCallback q]
                        if !hw.registerCallback then some (false, p6, e7)
                        else
                          match p6.playerPlay with
                          | none => none
                          | some play =>
                            let e8 := e7 ++ [Effect.setPlayState play true]
                            if !hw.setPlaying then some (false, p6, e8)
                            else
                              let p9 := { p6 with isPlaying := true, currentPosition := 0 }
                              let r := p9.enqueueBuffer
                              some (true, r.1, e8 ++ r.2)

/-- Embedding of `AudioPlayer::stopPlayback`.  `hwStop` is the result of
`SetPlayState(SL_PLAYSTATE_STOPPED)`, which the code does not look at. -/
def AudioPlayer.stopPlayback (p : AudioPlayer) (hwStop : Bool) :
    Bool × AudioPlayer × List Effect :=
  if !p.isPlaying then (false, p, [])
  else
    let p1 := { p with isPlaying := false }
    let _result := hwStop
    let e1 := match p1.playerPlay with
      | some play => [Effect.setPlayState play false]
      | none => []
    match p1.playerObject with
    | some obj =>
      (true, { p1 with playerObject := none, playerPlay := none,
                       playerBufferQueue := none }, e1 ++ [Effect.destroy obj])
    | none => (true, p1, e1)

/-- Embedding of `AudioPlayer::isCurrentlyPlaying`. -/
def AudioPlayer.isCurrentlyPlaying (p : AudioPlayer) : Bool := p.isPlaying

/-- The hardware thread firing the player callback until `isPlaying` is false,
at most `fuel` times; `none` when the flag is still set after `fuel` callbacks.
The result carries the final engine, the effects, and the number of callbacks. -/
def AudioPlayer.runCallbacks : Nat → AudioPlayer → Option (AudioPlayer × List Effect × Nat)
  | fuel, p =>
    if !p.isPlaying then some (p, [], 0)
    else
      match fuel with
      | 0 => none
      | fuel + 1 =>
        let r := p.enqueueBuffer
        match AudioPlayer.runCallbacks fuel r.1 with
        | none => none
        | some (q, e, n) => some (q, r.2 ++ e, n + 1)

/-- The queue submissions among a list of effects: for each one the value of
`isPlaying` when it was issued, the offset into the store, and the samples. -/
def submissions : List Effect → List (Bool × Nat × List Int)
  | [] => []
  | Effect.enqueueSamples _ flag offset samples :: es => (flag, offset, samples) :: submissions es
  | _ :: es => submissions es

/-- The file writes among a list of effects. -/
def fileWrites : List Effect → List (String × List Nat)
  | [] => []
  | Effect.writeFile path bytes :: es => (path, bytes) :: fileWrites es
  | _ :: es => fileWrites es

/-! ## Reading header fields back, and the layout the format prescribes -/

/-- The unsigned value stored little-endian in the first `n` bytes of a list. -/
def readLE : Nat → List Nat → Nat
  | 0, _ => 0
  | _ + 1, [] => 0
  | n + 1, b :: bs => b + 256 * readLE n bs

/-- The `fileSize` field of a header: bytes 4..7. -/
def headerFileSize (header : List Nat) : Nat := readLE 4 (header.drop 4)

/-- The `dataBytes` (data-subchunk size) field of a header: bytes 40..43. -/
def headerDataBytes (header : List Nat) : Nat := readLE 4 (header.drop 40)

/-- The 32-bit little-endian encoding of a value below `2^32`. -/
def le32 (v : Nat) : List Nat :=
  [v % 256, v / 256 % 256, v / 65536 % 256, v / 16777216 % 256]

/-- The 16-bit little-endian encoding of a value below `2^16`. -/
def le16 (v : Nat) : List Nat := [v % 256, v / 256 % 256]

/-- The ASCII codes of the characters of a tag such as `"RIFF"`. -/
def ascii (tag : String) : List Nat := tag.toList.map Char.toNat

/-- A sample list holds 16-bit signed samples. -/
def IsInt16 (s : List Int) : Prop := ∀ x ∈ s, -32768 ≤ x ∧ x ≤ 32767

/-! ## Sequences of player operations -/

/-- Answers of the hardware to the calls of `AudioPlayer::initialize`. -/
structure EngineInitHw where
  createEngine : HwOut
  realize : Bool
  getEngine : HwOut
  deriving DecidableEq, Repr

/-- A freshly constructed `AudioPlayer`: the default member initializers. -/
def AudioPlayer.fresh : AudioPlayer := ⟨none, none, none, none, none, false, [], 0⟩

/-- Embedding of `AudioPlayer::initialize`: the result and the engine.  Its three
hardware calls are engine-level calls that no claim looks at; they are not
recorded as effects. -/
def AudioPlayer.initialize (p : AudioPlayer) (hw : EngineInitHw) :
    Option (Bool × AudioPlayer) :=
  let p1 := { p with engineObject := hw.createEngine.out }
  if !hw.createEngine.ok then some (false, p1)
  else
    match p1.engineObject with
    | none => none
    | some _ =>
      if !hw.realize then some (false, p1)
      else
        let p2 := { p1 with engineEngine := hw.getEngine.out }
        if !hw.getEngine.ok then some (false, p2)
        else some (true, p2)

/-- One operation on the player, with what the outside world answers to it. -/
inductive PlayerStep where
  | init (hw : EngineInitHw)
  | loadAudioFile (file : Option (List Nat))
  | startPlayback (hw : PlayerStartHw)
  | callback
  | stopPlayback (hwStop : Bool)
  deriving DecidableEq, Repr

/-- The engine after one operation; `none` when the operation dereferences a
null pointer. -/
def AudioPlayer.step (p : AudioPlayer) : PlayerStep → Option AudioPlayer
  | PlayerStep.init hw => Option.map (fun r => r.2) <| AudioPlayer.initialize p hw
  | PlayerStep.loadAudioFile file => some (p.loadAudioFile file).2
  | PlayerStep.startPlayback hw => (p.startPlayback hw).map (fun r => r.2.1)
  | PlayerStep.callback => some p.enqueueBuffer.1
  | PlayerStep.stopPlayback hwStop => some (p.stopPlayback hwStop).2.1

/-- The engine after a sequence of operations, in order. -/
def AudioPlayer.run : AudioPlayer → List PlayerStep → Option AudioPlayer
  | p, [] => some p
  | p, s :: ss =>
    match p.step s with
    | none => none
    | some p1 => AudioPlayer.run p1 ss

/-- Hardware on which every call of `initialize` succeeds. -/
def goodInitHw : EngineInitHw := ⟨⟨true, some 1⟩, true, ⟨true, some 2⟩⟩

/-- A session on a three-sample file: initialize, load, start, one callback,
stop. -/
def exampleSession : List PlayerStep :=
  [PlayerStep.init goodInitHw,
   PlayerStep.loadAudioFile (some (List.replicate 44 0 ++ [7, 0, 8, 0, 9, 0])),
   PlayerStep.startPlayback ⟨⟨true, some 6⟩, true, ⟨true, some 3⟩, true, ⟨true, some 4⟩,
     ⟨true, some 5⟩, true, true⟩,
   PlayerStep.callback,
   PlayerStep.stopPlayback true]

/-! ## Concrete engines and hardware answers used in the examples -/

/-- An initialized, idle recorder that holds no capture-session object. -/
def idleRecorder : AudioRecorder := ⟨some 1, some 2, none, none, none, false, [], ""⟩

/-- Hardware on which every call of `startRecording` succeeds. -/
def goodRecorderHw : RecorderStartHw :=
  ⟨⟨true, some 3⟩, true, ⟨true, some 4⟩, ⟨true, some 5⟩, true, true, true⟩

/-- Hardware that creates the recorder object and then fails to realize it. -/
def realizeFailsHw : RecorderStartHw :=
  ⟨⟨true, some 3⟩, false, ⟨true, some 4⟩, ⟨true, some 5⟩, true, true, true⟩

/-- The recorder `idleRecorder` after `startRecording "out.wav"` on `realizeFailsHw`. -/
def failedStartRecorder : AudioRecorder :=
  ⟨some 1, some 2, some 3, none, none, false, [], "out.wav"⟩

/-- Hardware on which every call of `startRecording` succeeds and the recorder
object created is a new one (handle 7). -/
def retryRecorderHw : RecorderStartHw :=
  ⟨⟨true, some 7⟩, true, ⟨true, some 8⟩, ⟨true, some 9⟩, true, true, true⟩

/-- A recording recorder whose accumulator holds two samples. -/
def activeRecorder : AudioRecorder :=
  ⟨some 1, some 2, some 3, some 4, some 5, true, [10, -10], "out.wav"⟩

/-- The recorder `idleRecorder` after `startRecording "out.wav"` on `goodRecorderHw`. -/
def startedRecorder : AudioRecorder :=
  ⟨some 1, some 2, some 3, some 4, some 5, true, [], "out.wav"⟩

/-- The effects of `startRecording` on `idleRecorder` with `goodRecorderHw`. -/
def startedRecorderEffects : List Effect :=
  [Effect.createAudioRecorder 2, Effect.realize 3,
   Effect.getInterface 3 InterfaceId.SL_IID_RECORD,
   Effect.getInterface 3 InterfaceId.SL_IID_ANDROIDSIMPLEBUFFERQUEUE,
   Effect.registerCallback 5, Effect.enqueueRecordBuffer 5, Effect.setRecordState 4 true]

/-- An initialized, idle player with a store of three samples. -/
def loadedPlayer : AudioPlayer := ⟨some 1, some 2, none, none, none, false, [7, 8, 9], 0⟩

/-- A playing player about to submit its only chunk. -/
def activePlayer : AudioPlayer := ⟨some 1, some 2, some 3, some 4, some 5, true, [7, 8, 9], 0⟩

/-- Hardware on which every call of `startPlayback` succeeds. -/
def goodPlayerHw : PlayerStartHw :=
  ⟨⟨true, some 6⟩, true, ⟨true, some 3⟩, true, ⟨true, some 4⟩, ⟨true, some 5⟩, true, true⟩

/-- The player `loadedPlayer` after `startPlayback` on `goodPlayerHw`. -/
def startedPlayer : AudioPlayer := ⟨some 1, some 2, some 3, some 4, some 5, false, [7, 8, 9], 3⟩

/-- The effects of `startPlayback` on `loadedPlayer` with `goodPlayerHw`. -/
def startedPlayerEffects : List Effect :=
  [Effect.createOutputMix 2, Effect.realize 6, Effect.createAudioPlayer 2 6, Effect.realize 3,
   Effect.getInterface 3 InterfaceId.SL_IID_PLAY,
   Effect.getInterface 3 InterfaceId.SL_IID_ANDROIDSIMPLEBUFFERQUEUE,
   Effect.registerCallback 5, Effect.setPlayState 4 true,
   Effect.enqueueSamples 5 true 0 [7, 8, 9]]

/-! ## Two threads on one recorder

The hardware thread runs the recorder callback, one invocation at a time; the
application thread runs one call of `stopRecording`.  Each thread is cut at its
accesses to what the two share: the atomic flag `isRecording`, the mutex
`bufferMutex`, the accumulator `audioBuffer` and the queue handle.  A schedule
picks which thread takes its next step; a thread that waits for the mutex does
not move. -/

/-- The two threads. -/
inductive Thread where
  | hardware
  | application
  deriving DecidableEq, Repr

/-- Where the hardware thread stands in `processAudioData`.  `idle`: no
invocation is running.  `wantLock`: the flag was read as set; next is the
`lock_guard`.  `locked`: the mutex is held; next is `audioBuffer.insert`.
`inserted`: next is the end of the guarded block.  `unlocked`: next is the read
of `recorderBufferQueue`.  `queueRead`: the handle was non-null; next is the
second read of the flag and the `Enqueue`. -/
inductive HwPc where
  | idle
  | wantLock (recordBuffer : List Int)
  | locked (recordBuffer : List Int)
  | inserted
  | unlocked
  | queueRead (queue : Handle)
  deriving DecidableEq, Repr

/-- Where the application thread stands in `stopRecording`.  `start`: next is
the read of the flag.  `clearFlag`: next is `isRecording = false`.
`requestStop`: next is `SetRecordState`.  `wantLock`: next is the `lock_guard`
of `saveToFile`.  `locked`: the mutex is held; next is the body of `saveToFile`.
`saved`: next is the end of `saveToFile`.  `release`: next is `Destroy` and the
clearing of the handles.  `returned`: the call has returned. -/
inductive AppPc where
  | start
  | clearFlag
  | requestStop
  | wantLock
  | locked
  | saved
  | release
  | returned (result : Bool)
  deriving DecidableEq, Repr

/-- One move of the schedule: the audio subsystem invokes the callback on a
filled scratch buffer (it does so only when no invocation is running), the
hardware thread takes its next step, or the application thread does. -/
inductive Tick where
  | callback (recordBuffer : List Int)
  | hardware
  | application
  deriving DecidableEq, Repr

/-- The recorder shared by the two threads, the owner of `bufferMutex`, where
each thread stands, and the effects so far.  Two fields only observe:
`appended` lists what each completed `insert` appended, in order, and
`appendedAtLock` is the value of `appended` when `saveToFile` took the mutex. -/
structure Session where
  recorder : AudioRecorder
  mutexOwner : Option Thread
  hwPc : HwPc
  appPc : AppPc
  effects : List Effect
  appended : List (List Int)
  appendedAtLock : Option (List (List Int))
  deriving DecidableEq, Repr

/-- A recorder on which no invocation of the callback and no `stopRecording` is
running yet. -/
def Session.init (s : AudioRecorder) : Session := ⟨s, none, HwPc.idle, AppPc.start, [], [], none⟩

/-- The invocation of the callback: `if (!isRecording) return;`. -/
def Session.invoke (c : Session) (recordBuffer : List Int) : Session :=
  match c.hwPc with
  | HwPc.idle =>
    if !c.recorder.isRecording then c else { c with hwPc := HwPc.wantLock recordBuffer }
  | _ => c

/-- The next step of the hardware thread inside `processAudioData`. -/
def Session.hardwareStep (c : Session) : Session :=
  match c.hwPc with
  | HwPc.idle => c
  | HwPc.wantLock b =>
    match c.mutexOwner with
    | none => { c with mutexOwner := some Thread.hardware, hwPc := HwPc.locked b }
    | some _ => c
  | HwPc.locked b =>
    { c with
      recorder := { c.recorder with
        audioBuffer := c.recorder.audioBuffer ++ b.take AudioRecorder.BUFFER_SIZE },
      appended := c.appended ++ [b.take AudioRecorder.BUFFER_SIZE],
      hwPc := HwPc.inserted }
  | HwPc.inserted => { c with mutexOwner := none, hwPc := HwPc.unlocked }
  | HwPc.unlocked =>
    match c.recorder.recorderBufferQueue with
    | some q => { c with hwPc := HwPc.queueRead q }
    | none => { c with hwPc := HwPc.idle }
  | HwPc.queueRead q =>
    if c.recorder.isRecording then
      { c with effects := c.effects ++ [Effect.enqueueRecordBuffer q], hwPc := HwPc.idle }
    else { c with hwPc := HwPc.idle }

/-- The next step of the application thread inside `stopRecording`. -/
def Session.applicationStep (canOpen : Bool) (c : Session) : Session :=
  match c.appPc with
  | AppPc.start =>
    if !c.recorder.isRecording then { c with appPc := AppPc.returned false }
    else { c with appPc := AppPc.clearFlag }
  | AppPc.clearFlag =>
    { c with recorder := { c.recorder with isRecording := false }, appPc := AppPc.requestStop }
  | AppPc.requestStop =>
    match c.recorder.recorderRecord with
    | some rec =>
      { c with effects := c.effects ++ [Effect.setRecordState rec false],
               appPc := AppPc.wantLock }
    | none => { c with appPc := AppPc.wantLock }
  | AppPc.wantLock =>
    match c.mutexOwner with
    | none =>
      { c with mutexOwner := some Thread.application, appPc := AppPc.locked,
               appendedAtLock := some c.appended }
    | some _ => c
  | AppPc.locked =>
    { c with effects := c.effects ++ c.recorder.saveToFile canOpen, appPc := AppPc.saved }
  | AppPc.saved => { c with mutexOwner := none, appPc := AppPc.release }
  | AppPc.release =>
    match c.recorder.recorderObject with
    | some obj =>
      { c with
        recorder := { c.recorder with recorderObject := none, recorderRecord := none,
                                      recorderBufferQueue := none },
        effects := c.effects ++ [Effect.destroy obj],
        appPc := AppPc.returned true }
    | none => { c with appPc := AppPc.returned true }
  | AppPc.returned _ => c

/-- One move of the schedule. -/
def Session.tick (canOpen : Bool) (c : Session) : Tick → Session
  | Tick.callback recordBuffer => c.invoke recordBuffer
  | Tick.hardware => c.hardwareStep
  | Tick.application => c.applicationStep canOpen

/-- A whole schedule, move by move. -/
def Session.run (canOpen : Bool) : Session → List Tick → Session
  | c, [] => c
  | c, t :: ts => Session.run canOpen (c.tick canOpen t) ts

/-- Every call of `startPlayback` returns `SL_RESULT_SUCCESS` and every
out-parameter receives an object or interface. -/
def PlayerStartHw.allSucceed (hw : PlayerStartHw) : Bool :=
  hw.createMix.ok && hw.createMix.out.isSome && hw.realizeMix &&
  hw.createPlayer.ok && hw.createPlayer.out.isSome && hw.realizePlayer &&
  hw.getPlay.ok && hw.getPlay.out.isSome && hw.getQueue.ok && hw.getQueue.out.isSome &&
  hw.registerCallback && hw.setPlaying

/-- Every call of `startRecording` returns `SL_RESULT_SUCCESS` and every
out-parameter receives an object or interface. -/
def RecorderStartHw.allSucceed (hw : RecorderStartHw) : Bool :=
  hw.createRecorder.ok && hw.createRecorder.out.isSome && hw.realize &&
  hw.getRecord.ok && hw.getRecord.out.isSome && hw.getQueue.ok && hw.getQueue.out.isSome &&
  hw.registerCallback && hw.enqueue && hw.setRecording

/-- An initialized, idle player with a store of `4096 + 3` samples `0, 1, 2, ...`. -/
def longPlayer : AudioPlayer :=
  ⟨some 1, some 2, none, none, none, false, (List.range 4099).map Int.ofNat, 0⟩

/-! ## Codec lemmas -/

theorem rawBytes_length (n v : Nat) : (rawBytes n v).length = n := by
  induction n generalizing v with
  | zero => rfl
  | succ n ih => simp [rawBytes, ih]

theorem rawBytes_four (v : Nat) : rawBytes 4 v = le32 v := by
  simp [rawBytes, le32, Nat.div_div_eq_div_mul]

theorem rawBytes_two (v : Nat) : rawBytes 2 v = le16 v := by
  simp [rawBytes, le16]

theorem literalBytes_RIFF : literalBytes "RIFF" 4 = [82, 73, 70, 70] := by decide

theorem literalBytes_WAVE : literalBytes "WAVE" 4 = [87, 65, 86, 69] := by decide

theorem literalBytes_fmt : literalBytes "fmt " 4 = [102, 109, 116, 32] := by decide

theorem literalBytes_data : literalBytes "data" 4 = [100, 97, 116, 97] := by decide

theorem toU32_toSize (n : Nat) : toU32 (toSize n) = n % 2 ^ 32 := by
  simp only [toU32, toSize, SIZE_BITS]
  omega

theorem toU32_toSize_add (n : Nat) : toU32 (toSize (36 + toSize n)) = (36 + n) % 2 ^ 32 := by
  simp only [toU32, toSize, SIZE_BITS]
  omega

/-- The header as a function of the two stored size fields. -/
theorem writeWavHeader_eq (N : Nat) :
    AudioRecorder.writeWavHeader N =
      [82, 73, 70, 70] ++ le32 ((36 + N * 2) % 2 ^ 32) ++ [87, 65, 86, 69]
        ++ [102, 109, 116, 32] ++ le32 16 ++ le16 1 ++ le16 1 ++ le32 44100 ++ le32 88200
        ++ le16 2 ++ le16 16 ++ [100, 97, 116, 97] ++ le32 ((N * 2) % 2 ^ 32) := by
  have h1 : toU32 (toSize (36 + toSize (N * 2))) = (36 + N * 2) % 2 ^ 32 := toU32_toSize_add _
  have h2 : toU32 (toSize (N * 2)) = (N * 2) % 2 ^ 32 := toU32_toSize _
  simp only [AudioRecorder.writeWavHeader, h1, h2, rawBytes_four,
    rawBytes_two, literalBytes_RIFF, literalBytes_WAVE, literalBytes_fmt, literalBytes_data]
  rfl

theorem writeWavHeader_length (N : Nat) : (AudioRecorder.writeWavHeader N).length = 44 := by
  rw [writeWavHeader_eq]
  simp [le32, le16]

theorem readLE_le32 (v : Nat) (h : v < 2 ^ 32) : readLE 4 (le32 v) = v := by
  simp only [readLE, le32]
  omega

theorem headerFileSize_eq (N : Nat) :
    headerFileSize (AudioRecorder.writeWavHeader N) = (36 + N * 2) % 2 ^ 32 := by
  rw [writeWavHeader_eq]
  have h : (36 + N * 2) % 2 ^ 32 < 2 ^ 32 := Nat.mod_lt _ (by norm_num)
  simpa [headerFileSize, le32] using readLE_le32 _ h

theorem headerDataBytes_eq (N : Nat) :
    headerDataBytes (AudioRecorder.writeWavHeader N) = (N * 2) % 2 ^ 32 := by
  rw [writeWavHeader_eq]
  have h : (N * 2) % 2 ^ 32 < 2 ^ 32 := Nat.mod_lt _ (by norm_num)
  simpa [headerDataBytes, le32, le16] using readLE_le32 _ h

theorem shortOfBytes_shortBytes (x : Int) (h : -32768 ≤ x ∧ x ≤ 32767) :
    shortOfBytes ((x % 65536).toNat % 256) ((x % 65536).toNat / 256 % 256) = x := by
  simp only [shortOfBytes]
  split <;> omega

theorem readSamples_samplesBytes (s : List Int) (h : IsInt16 s) :
    AudioPlayer.readSamples (samplesBytes s) = s := by
  induction s with
  | nil => rfl
  | cons x xs ih =>
    have hx := h x (List.mem_cons_self x xs)
    have hxs : IsInt16 xs := fun y hy => h y (List.mem_cons_of_mem x hy)
    simp [samplesBytes, shortBytes, rawBytes, AudioPlayer.readSamples,
      shortOfBytes_shortBytes x hx, ih hxs]

theorem readSamples_length (bytes : List Nat) :
    (AudioPlayer.readSamples bytes).length = bytes.length / 2 := by
  induction bytes using AudioPlayer.readSamples.induct with
  | case1 lo hi rest ih =>
    simp only [AudioPlayer.readSamples, List.length_cons, ih]
    omega
  | case2 bytes hne =>
    match bytes, hne with
    | [], _ => rfl
    | [_], _ => simp [AudioPlayer.readSamples]
    | lo :: hi :: rest, hne => exact absurd rfl (hne lo hi rest)

theorem readSamples_getElem? (bytes : List Nat) (i : Nat) (h : i < bytes.length / 2) :
    ∃ lo hi, bytes[2 * i]? = some lo ∧ bytes[2 * i + 1]? = some hi ∧
      (AudioPlayer.readSamples bytes)[i]? = some (shortOfBytes lo hi) := by
  induction bytes using AudioPlayer.readSamples.induct generalizing i with
  | case1 lo hi rest ih =>
    cases i with
    | zero => exact ⟨lo, hi, by simp, by simp, by simp [AudioPlayer.readSamples]⟩
    | succ j =>
      have hj : j < rest.length / 2 := by
        simp only [List.length_cons] at h
        omega
      obtain ⟨a, b, ha, hb, hc⟩ := ih j hj
      refine ⟨a, b, ?_, ?_, ?_⟩
      · rw [show 2 * (j + 1) = 2 * j + 1 + 1 by ring]
        simpa using ha
      · rw [show 2 * (j + 1) + 1 = 2 * j + 1 + 1 + 1 by ring]
        simpa using hb
      · simpa [AudioPlayer.readSamples] using hc
  | case2 bytes hne =>
    match bytes, hne, h with
    | [], _, h => simp at h
    | [_], _, h =>
      simp only [List.length_cons, List.length_nil] at h
      omega
    | lo :: hi :: rest, hne, _ => exact absurd rfl (hne lo hi rest)

theorem drop_header (N : Nat) (payload : List Nat) :
    (AudioRecorder.writeWavHeader N ++ payload).drop 44 = payload := by
  have h := writeWavHeader_length N
  rw [List.drop_append_of_le_length (by omega)]
  rw [List.drop_of_length_le (by omega)]
  rfl

theorem loadAudioFile_some (p : AudioPlayer) (f : List Nat) :
    p.loadAudioFile (some f) =
      (!(AudioPlayer.readSamples (f.drop 44)).isEmpty,
       { p with audioData := AudioPlayer.readSamples (f.drop 44), currentPosition := 0 }) := rfl

/-! ## C1: round trip through the file -/

/-- C1: for every accumulator `s` of at least one 16-bit sample, the bytes that
`saveToFile` writes (the header for `s.length` samples, then the little-endian
bytes of `s`), given to `loadAudioFile`, make it return `true` and leave the
sample store equal to `s` with the cursor at 0, whatever the player held before. -/
theorem round_trip (r : AudioRecorder) (p : AudioPlayer)
    (hN : 1 ≤ r.audioBuffer.length) (h16 : IsInt16 r.audioBuffer) :
    ∃ bytes : List Nat,
      r.saveToFile true = [Effect.writeFile r.outputFilePath bytes] ∧
      bytes = AudioRecorder.writeWavHeader r.audioBuffer.length ++ samplesBytes r.audioBuffer ∧
      p.loadAudioFile (some bytes) =
        (true, { p with audioData := r.audioBuffer, currentPosition := 0 }) ∧
      (p.loadAudioFile (some bytes)).2.audioData.length = r.audioBuffer.length := by
  have hne : r.audioBuffer ≠ [] := by
    intro h
    rw [h] at hN
    simp at hN
  have hload : p.loadAudioFile
      (some (AudioRecorder.writeWavHeader r.audioBuffer.length ++ samplesBytes r.audioBuffer)) =
        (true, { p with audioData := r.audioBuffer, currentPosition := 0 }) := by
    rw [loadAudioFile_some, drop_header, readSamples_samplesBytes _ h16]
    simp [hne]
  refine ⟨_, ?_, rfl, hload, ?_⟩
  · simp [AudioRecorder.saveToFile, AudioRecorder.fileImage, hne]
  · rw [hload]

/-- Witness of C1 on the three samples `1, -2, 32767`. -/
theorem round_trip_witness :
    (⟨none, none, none, none, none, false, [], 0⟩ : AudioPlayer).loadAudioFile
        (some (AudioRecorder.writeWavHeader 3 ++ samplesBytes [1, -2, 32767])) =
      (true, ⟨none, none, none, none, none, false, [1, -2, 32767], 0⟩) := by
  obtain ⟨bytes, _, hb, hl, _⟩ :=
    round_trip ⟨none, none, none, none, none, false, [1, -2, 32767], "out.wav"⟩
      ⟨none, none, none, none, none, false, [], 0⟩ (by decide)
      (by intro x hx; simp at hx; rcases hx with h | h | h <;> subst h <;> decide)
  rw [hb] at hl
  exact hl

/-! ## C2: header layout -/

/-- C2: for every sample count `N` with `36 + 2*N < 2^32` the header is exactly
44 bytes: "RIFF", le32(36+2N), "WAVE", "fmt ", le32(16), le16(1), le16(1),
le32(44100), le32(88200), le16(2), le16(16), "data", le32(2N). -/
theorem header_layout (N : Nat) (h : 36 + 2 * N < 2 ^ 32) :
    AudioRecorder.writeWavHeader N =
      ascii "RIFF" ++ le32 (36 + 2 * N) ++ ascii "WAVE" ++ ascii "fmt " ++ le32 16 ++ le16 1
        ++ le16 1 ++ le32 44100 ++ le32 88200 ++ le16 2 ++ le16 16 ++ ascii "data"
        ++ le32 (2 * N) ∧
    (AudioRecorder.writeWavHeader N).length = 44 ∧
    88200 = AudioRecorder.SAMPLE_RATE * AudioRecorder.CHANNELS * AudioRecorder.BITS_PER_SAMPLE / 8 ∧
    2 = AudioRecorder.CHANNELS * AudioRecorder.BITS_PER_SAMPLE / 8 := by
  refine ⟨?_, writeWavHeader_length N, by decide, by decide⟩
  have h1 : (36 + N * 2) % 2 ^ 32 = 36 + 2 * N := by omega
  have h2 : (N * 2) % 2 ^ 32 = 2 * N := by omega
  rw [writeWavHeader_eq, h1, h2]
  have a1 : ascii "RIFF" = [82, 73, 70, 70] := by decide
  have a2 : ascii "WAVE" = [87, 65, 86, 69] := by decide
  have a3 : ascii "fmt " = [102, 109, 116, 32] := by decide
  have a4 : ascii "data" = [100, 97, 116, 97] := by decide
  rw [a1, a2, a3, a4]

/-- Witness of C2 at one sample: the 44 bytes of the header. -/
theorem header_layout_witness :
    AudioRecorder.writeWavHeader 1 =
      [82, 73, 70, 70, 38, 0, 0, 0, 87, 65, 86, 69, 102, 109, 116, 32, 16, 0, 0, 0, 1, 0, 1, 0,
       68, 172, 0, 0, 136, 88, 1, 0, 2, 0, 16, 0, 100, 97, 116, 97, 2, 0, 0, 0] := by
  rw [(header_layout 1 (by norm_num)).1]
  decide

/-! ## C3: the two size fields -/

/-- C3, refuted as stated: at `sampleCount = 2^31` the stored `fileSize` is 36
and the stored `dataBytes` is 0, not `36 + 2^32` and `2^32`. -/
theorem header_fields_wrap :
    headerFileSize (AudioRecorder.writeWavHeader 2147483648) = 36 ∧
    headerDataBytes (AudioRecorder.writeWavHeader 2147483648) = 0 ∧
    headerFileSize (AudioRecorder.writeWavHeader 2147483648) ≠ 36 + 2 * 2147483648 ∧
    headerDataBytes (AudioRecorder.writeWavHeader 2147483648) ≠ 2 * 2147483648 := by
  rw [headerFileSize_eq, headerDataBytes_eq]
  norm_num

/-- C3, amended: for every `sampleCount` the stored `fileSize` is
`(36 + 2*sampleCount) mod 2^32` and the stored `dataBytes` is
`(2*sampleCount) mod 2^32`; they equal `36 + 2*sampleCount` and `2*sampleCount`
whenever `36 + 2*sampleCount < 2^32`. -/
theorem header_fields (sampleCount : Nat) :
    headerFileSize (AudioRecorder.writeWavHeader sampleCount) = (36 + 2 * sampleCount) % 2 ^ 32 ∧
    headerDataBytes (AudioRecorder.writeWavHeader sampleCount) = (2 * sampleCount) % 2 ^ 32 ∧
    (36 + 2 * sampleCount < 2 ^ 32 →
      headerFileSize (AudioRecorder.writeWavHeader sampleCount) = 36 + 2 * sampleCount ∧
      headerDataBytes (AudioRecorder.writeWavHeader sampleCount) = 2 * sampleCount) := by
  rw [headerFileSize_eq, headerDataBytes_eq]
  refine ⟨by rw [Nat.mul_comm], by rw [Nat.mul_comm], fun h => ⟨?_, ?_⟩⟩ <;> omega

/-- Witness of C3 (amended) at three samples: the fields hold 42 and 6. -/
theorem header_fields_witness :
    headerFileSize (AudioRecorder.writeWavHeader 3) = 42 ∧
    headerDataBytes (AudioRecorder.writeWavHeader 3) = 6 :=
  (header_fields 3).2.2 (by norm_num)


/-! ## Player lemmas -/

theorem enqueueBuffer_active (p : AudioPlayer) (q : Handle) (hp : p.isPlaying = true)
    (hq : p.playerBufferQueue = some q) (hc : p.currentPosition < p.audioData.length) :
    p.enqueueBuffer =
      ({ p with
          currentPosition := p.currentPosition + min 4096 (p.audioData.length - p.currentPosition),
          isPlaying := decide (p.currentPosition + min 4096 (p.audioData.length - p.currentPosition)
            < p.audioData.length) },
       [Effect.enqueueSamples q true p.currentPosition
          ((p.audioData.drop p.currentPosition).take
            (min 4096 (p.audioData.length - p.currentPosition)))]) := by
  have hpos : 0 < min 4096 (p.audioData.length - p.currentPosition) := by omega
  have hnot : ¬ (p.currentPosition ≥ p.audioData.length) := by omega
  simp only [AudioPlayer.enqueueBuffer, hp, hq, AudioPlayer.BUFFER_SIZE, hnot, gt_iff_lt, hpos,
    Bool.not_true, decide_False, Bool.or_self, Bool.false_eq_true, if_false, if_true]
  split
  · next h =>
    simp at h
    have : ¬ (p.currentPosition + min 4096 (p.audioData.length - p.currentPosition)
            < p.audioData.length) := by omega
    simp [this]
  · next h =>
    simp at h
    simp [h, hp]

theorem enqueueBuffer_idle (p : AudioPlayer) (hp : p.isPlaying = false) :
    p.enqueueBuffer = (p, []) := by
  cases p
  simp only at hp
  simp [AudioPlayer.enqueueBuffer, hp]

theorem startPlayback_success (p p1 : AudioPlayer) (hw : PlayerStartHw) (e1 : List Effect)
    (h : p.startPlayback hw = some (true, p1, e1)) :
    p.isPlaying = false ∧ p.audioData ≠ [] ∧
    ∃ (p9 : AudioPlayer) (e8 : List Effect) (q : Handle),
      p9.isPlaying = true ∧ p9.currentPosition = 0 ∧ p9.audioData = p.audioData ∧
      p9.playerBufferQueue = some q ∧ submissions e8 = [] ∧
      p1 = p9.enqueueBuffer.1 ∧ e1 = e8 ++ p9.enqueueBuffer.2 := by
  have hidle : p.isPlaying = false ∧ p.audioData ≠ [] := by
    cases hip : p.isPlaying
    · cases had : p.audioData with
      | nil => simp [AudioPlayer.startPlayback, hip, had] at h
      | cons x xs => simp
    · simp [AudioPlayer.startPlayback, hip] at h
  refine ⟨hidle.1, hidle.2, ?_⟩
  unfold AudioPlayer.startPlayback at h
  repeat' (split at h <;> try simp at h)
  rename_i h0 x4 eng heng hcm x3 mix hmix hrm hcp x2 obj hobj hrp hgp hgq x1 q hq hrc x0 play
    hplay hsp
  refine ⟨_, [Effect.createOutputMix eng, Effect.realize mix, Effect.createAudioPlayer eng mix,
    Effect.realize obj, Effect.getInterface obj InterfaceId.SL_IID_PLAY,
    Effect.getInterface obj InterfaceId.SL_IID_ANDROIDSIMPLEBUFFERQUEUE,
    Effect.registerCallback q, Effect.setPlayState play true], q, ?_, ?_, ?_, ?_, ?_, h.1.symm, ?_⟩
  · rfl
  · rfl
  · rfl
  · exact hq
  · rfl
  · rw [← h.2]
    rfl

theorem enqueueBuffer_more (p : AudioPlayer) (q : Handle) (hp : p.isPlaying = true)
    (hq : p.playerBufferQueue = some q)
    (hmore : p.currentPosition + 4096 < p.audioData.length) :
    p.enqueueBuffer =
      ({ p with currentPosition := p.currentPosition + 4096 },
       [Effect.enqueueSamples q true p.currentPosition
          ((p.audioData.drop p.currentPosition).take 4096)]) := by
  have hmin : min 4096 (p.audioData.length - p.currentPosition) = 4096 := by omega
  rw [enqueueBuffer_active p q hp hq (by omega), hmin]
  simp [hmore, hp]

theorem enqueueBuffer_last (p : AudioPlayer) (q : Handle) (hp : p.isPlaying = true)
    (hq : p.playerBufferQueue = some q) (hc : p.currentPosition < p.audioData.length)
    (hlast : p.audioData.length - p.currentPosition ≤ 4096) :
    p.enqueueBuffer =
      ({ p with currentPosition := p.audioData.length, isPlaying := false },
       [Effect.enqueueSamples q true p.currentPosition (p.audioData.drop p.currentPosition)]) := by
  have hmin : min 4096 (p.audioData.length - p.currentPosition)
      = p.audioData.length - p.currentPosition := by omega
  have hfin : ¬ (p.currentPosition + (p.audioData.length - p.currentPosition)
      < p.audioData.length) := by omega
  have hcur : p.currentPosition + (p.audioData.length - p.currentPosition)
      = p.audioData.length := by omega
  rw [enqueueBuffer_active p q hp hq hc, hmin, List.take_of_length_le (by simp)]
  simp [hfin, hcur]

theorem runCallbacks_succ (p : AudioPlayer) (hp : p.isPlaying = true) (fuel : Nat) :
    AudioPlayer.runCallbacks (fuel + 1) p =
      match AudioPlayer.runCallbacks fuel p.enqueueBuffer.1 with
      | none => none
      | some (q, e, n) => some (q, p.enqueueBuffer.2 ++ e, n + 1) := by
  rw [AudioPlayer.runCallbacks]
  simp [hp]

theorem runCallbacks_idle (p : AudioPlayer) (hp : p.isPlaying = false) (fuel : Nat) :
    AudioPlayer.runCallbacks fuel p = some (p, [], 0) := by
  unfold AudioPlayer.runCallbacks
  simp [hp]

/-- The chunk sequence of a playback that continues at the cursor: `m + 1`
submissions of up to 4096 samples, each issued while the flag is set, the
callback firing `m` more times after the first submission. -/
theorem play_run (m : Nat) : ∀ (p : AudioPlayer) (q : Handle),
    p.isPlaying = true → p.playerBufferQueue = some q →
    4096 * m < p.audioData.length - p.currentPosition →
    p.audioData.length - p.currentPosition ≤ 4096 * (m + 1) →
    ∀ fuel, m ≤ fuel →
    ∃ e : List Effect,
      AudioPlayer.runCallbacks fuel p.enqueueBuffer.1 =
        some ({ p with isPlaying := false, currentPosition := p.audioData.length }, e, m) ∧
      submissions (p.enqueueBuffer.2 ++ e) =
        (List.range (m + 1)).map (fun i =>
          (true, p.currentPosition + 4096 * i,
            (p.audioData.drop (p.currentPosition + 4096 * i)).take 4096)) := by
  induction m with
  | zero =>
    intro p q hp hq hlo hhi fuel _
    rw [enqueueBuffer_last p q hp hq (by omega) (by omega)]
    refine ⟨[], ?_, ?_⟩
    · exact runCallbacks_idle _ rfl fuel
    · have ht : (p.audioData.drop p.currentPosition).take 4096
          = p.audioData.drop p.currentPosition :=
        List.take_of_length_le (by simp; omega)
      simp [submissions, ht, List.range_succ_eq_map]
  | succ m ih =>
    intro p q hp hq hlo hhi fuel hfuel
    have hmore : p.currentPosition + 4096 < p.audioData.length := by omega
    obtain ⟨fuel, rfl⟩ : ∃ f, fuel = f + 1 := ⟨fuel - 1, by omega⟩
    obtain ⟨e, hrun, hsub⟩ := ih { p with currentPosition := p.currentPosition + 4096 } q
      hp hq (by simp only; omega) (by simp only; omega) fuel (by omega)
    rw [enqueueBuffer_more p q hp hq hmore]
    refine ⟨({ p with currentPosition := p.currentPosition + 4096 } : AudioPlayer).enqueueBuffer.2
      ++ e, ?_, ?_⟩
    · have h2 := runCallbacks_succ
        ({ p with currentPosition := p.currentPosition + 4096 } : AudioPlayer) hp fuel
      rw [hrun] at h2
      exact h2
    · have hsub2 : submissions
          (({ p with currentPosition := p.currentPosition + 4096 } : AudioPlayer).enqueueBuffer.2
            ++ e) =
          (List.range (m + 1)).map (fun i =>
            (true, p.currentPosition + 4096 + 4096 * i,
              (p.audioData.drop (p.currentPosition + 4096 + 4096 * i)).take 4096)) := hsub
      show submissions (Effect.enqueueSamples q true _ _ :: (_ ++ e)) = _
      rw [submissions, hsub2]
      conv_rhs => rw [List.range_succ_eq_map, List.map_cons, List.map_map]
      simp only [Nat.mul_zero, Nat.add_zero]
      congr 1
      apply List.map_congr_left
      intro i _
      simp only [Function.comp, Nat.succ_eq_add_one]
      rw [show p.currentPosition + 4096 + 4096 * i = p.currentPosition + 4096 * (i + 1) by ring]

theorem submissions_append (a b : List Effect) :
    submissions (a ++ b) = submissions a ++ submissions b := by
  induction a with
  | nil => rfl
  | cons x xs ih => cases x <;> simp [submissions, ih]

theorem chunks_flatten (n : Nat) : ∀ (data : List Int) (c : Nat),
    data.length - c ≤ 4096 * n →
    ((List.range n).map (fun i => (data.drop (c + 4096 * i)).take 4096)).flatten
      = data.drop c := by
  induction n with
  | zero =>
    intro data c h
    rw [List.drop_of_length_le (by omega)]
    rfl
  | succ n ih =>
    intro data c h
    rw [List.range_succ_eq_map, List.map_cons, List.map_map, List.flatten_cons]
    have hfun : ((fun i => (data.drop (c + 4096 * i)).take 4096) ∘ Nat.succ)
        = fun i => (data.drop (c + 4096 + 4096 * i)).take 4096 := by
      funext i
      simp only [Function.comp, Nat.succ_eq_add_one]
      rw [show c + 4096 * (i + 1) = c + 4096 + 4096 * i by ring]
    rw [hfun, ih data (c + 4096) (by omega)]
    simp only [Nat.mul_zero, Nat.add_zero]
    rw [← List.drop_drop, List.take_append_drop]

/-! ## C4: playback runs to the end of the store -/

theorem startPlayback_succeeds (p : AudioPlayer) (hw : PlayerStartHw) (eng : Handle)
    (hidle : p.isPlaying = false) (hne : p.audioData ≠ []) (heng : p.engineEngine = some eng)
    (hgood : hw.allSucceed = true) :
    ∃ (p1 : AudioPlayer) (e1 : List Effect), p.startPlayback hw = some (true, p1, e1) := by
  obtain ⟨⟨cmok, cmout⟩, rm, ⟨cpok, cpout⟩, rp, ⟨gpok, gpout⟩, ⟨gqok, gqout⟩, rc, sp⟩ := hw
  simp only [PlayerStartHw.allSucceed, Bool.and_eq_true, Option.isSome_iff_exists] at hgood
  obtain ⟨⟨⟨⟨⟨⟨⟨⟨⟨⟨⟨h1, mix, h2⟩, h3⟩, h4⟩, obj, h5⟩, h6⟩, h7⟩, play, h8⟩, h9⟩, q, h10⟩, h11⟩,
    h12⟩ := hgood
  subst h1 h2 h3 h4 h5 h6 h7 h8 h9 h10 h11 h12
  have hempty : p.audioData.isEmpty = false := by
    cases hd : p.audioData with
    | nil => exact absurd hd hne
    | cons x xs => rfl
  simp [AudioPlayer.startPlayback, hidle, hempty, heng]

theorem startPlayback_true_inputs (p p1 : AudioPlayer) (hw : PlayerStartHw) (e1 : List Effect)
    (h : p.startPlayback hw = some (true, p1, e1)) :
    p.isPlaying = false ∧ (∃ eng, p.engineEngine = some eng) ∧ hw.allSucceed = true := by
  have hidle : p.isPlaying = false := (startPlayback_success p p1 hw e1 h).1
  refine ⟨hidle, ?_⟩
  unfold AudioPlayer.startPlayback at h
  repeat' (split at h <;> try simp at h)
  rename_i h0 x4 eng heng hcm x3 mix hmix hrm hcp x2 obj hobj hrp hgp hgq x1 q hq hrc x0 play
    hplay hsp
  refine ⟨⟨eng, heng⟩, ?_⟩
  simp only [Bool.not_eq_false] at hcm hrm hcp hrp hgp hgq hrc hsp
  simp [PlayerStartHw.allSucceed, hcm, hrm, hcp, hrp, hgp, hgq, hrc, hsp, hmix, hobj, hq, hplay]

/-- What follows a start that returned true: the callbacks run to the end of the
store. -/
theorem playback_run_of_start (k r : Nat) (p p1 : AudioPlayer) (hw : PlayerStartHw)
    (e1 : List Effect) (hr0 : 0 < r) (hr : r < AudioPlayer.BUFFER_SIZE)
    (hlen : p.audioData.length = AudioPlayer.BUFFER_SIZE * k + r)
    (hstart : p.startPlayback hw = some (true, p1, e1)) :
    ∀ fuel, k ≤ fuel →
    ∃ (pf : AudioPlayer) (e2 : List Effect),
      AudioPlayer.runCallbacks fuel p1 = some (pf, e2, k) ∧
      pf.isPlaying = false ∧ pf.audioData = p.audioData ∧
      submissions (e1 ++ e2) =
        (List.range (k + 1)).map (fun i =>
          (true, AudioPlayer.BUFFER_SIZE * i,
            (p.audioData.drop (AudioPlayer.BUFFER_SIZE * i)).take AudioPlayer.BUFFER_SIZE)) ∧
      (submissions (e1 ++ e2)).length = k + 1 ∧
      (∀ i, i < k →
        ((p.audioData.drop (AudioPlayer.BUFFER_SIZE * i)).take AudioPlayer.BUFFER_SIZE).length
          = AudioPlayer.BUFFER_SIZE) ∧
      ((p.audioData.drop (AudioPlayer.BUFFER_SIZE * k)).take AudioPlayer.BUFFER_SIZE).length = r ∧
      ((submissions (e1 ++ e2)).map (fun s => s.2.2)).flatten = p.audioData ∧
      (∀ s ∈ submissions (e1 ++ e2), s.1 = true) ∧
      pf.enqueueBuffer = (pf, []) := by
  intro fuel hfuel
  simp only [AudioPlayer.BUFFER_SIZE] at hr hlen ⊢
  obtain ⟨_, _, p9, e8, q, h9play, h9pos, h9data, h9q, he8, hp1, he1⟩ :=
    startPlayback_success p p1 hw e1 hstart
  obtain ⟨e2, hrun, hsub⟩ := play_run k p9 q h9play h9q
    (by rw [h9pos, h9data, hlen]; omega) (by rw [h9pos, h9data, hlen]; omega) fuel hfuel
  have hsubs : submissions (e1 ++ e2) =
      (List.range (k + 1)).map (fun i =>
        (true, 4096 * i, (p.audioData.drop (4096 * i)).take 4096)) := by
    rw [he1, List.append_assoc, submissions_append, he8, List.nil_append, hsub, h9pos, h9data]
    simp only [Nat.zero_add]
  refine ⟨{ p9 with isPlaying := false, currentPosition := p9.audioData.length }, e2,
    ?_, rfl, h9data, hsubs, ?_, ?_, ?_, ?_, ?_, enqueueBuffer_idle _ rfl⟩
  · rw [hp1]
    exact hrun
  · rw [hsubs]
    simp
  · intro i hi
    rw [List.length_take, List.length_drop, hlen]
    omega
  · rw [List.length_take, List.length_drop, hlen]
    omega
  · rw [hsubs, List.map_map]
    have hfun : ((fun s : Bool × Nat × List Int => s.2.2) ∘
        fun i => (true, 4096 * i, (p.audioData.drop (4096 * i)).take 4096))
        = fun i => (p.audioData.drop (0 + 4096 * i)).take 4096 := by
      funext i
      simp [Function.comp]
    rw [hfun, chunks_flatten (k + 1) p.audioData 0 (by omega)]
    rfl
  · intro s hs
    rw [hsubs] at hs
    obtain ⟨i, _, rfl⟩ := List.mem_map.mp hs
    rfl


/-- C4: with a store of `BUFFER_SIZE * k + r` samples, `0 < r < BUFFER_SIZE`, on
an idle, initialized player and hardware whose calls all succeed,
`startPlayback` returns true, and the callbacks that follow until `isPlaying`
is false (`k` of them, for any fuel of at least `k`) bring the submissions to
exactly `k + 1`; submission `i` (from 0) is the store slice at offset
`BUFFER_SIZE * i`, of `BUFFER_SIZE` samples for `i < k` and of `r` samples for
`i = k`; concatenated they are the store; `isPlaying` is true when each is
issued; and a further callback issues nothing.  (Every start that returns true
is such a start: `startPlayback_true_inputs`.) -/
theorem playback_termination (k r : Nat) (p : AudioPlayer) (hw : PlayerStartHw)
    (eng : Handle) (hr0 : 0 < r) (hr : r < AudioPlayer.BUFFER_SIZE)
    (hlen : p.audioData.length = AudioPlayer.BUFFER_SIZE * k + r)
    (hidle : p.isPlaying = false) (heng : p.engineEngine = some eng)
    (hgood : hw.allSucceed = true) :
    ∃ (p1 : AudioPlayer) (e1 : List Effect),
      p.startPlayback hw = some (true, p1, e1) ∧
      ∀ fuel, k ≤ fuel →
      ∃ (pf : AudioPlayer) (e2 : List Effect),
        AudioPlayer.runCallbacks fuel p1 = some (pf, e2, k) ∧
        pf.isPlaying = false ∧ pf.audioData = p.audioData ∧
        submissions (e1 ++ e2) =
          (List.range (k + 1)).map (fun i =>
            (true, AudioPlayer.BUFFER_SIZE * i,
              (p.audioData.drop (AudioPlayer.BUFFER_SIZE * i)).take AudioPlayer.BUFFER_SIZE)) ∧
        (submissions (e1 ++ e2)).length = k + 1 ∧
        (∀ i, i < k →
          ((p.audioData.drop (AudioPlayer.BUFFER_SIZE * i)).take AudioPlayer.BUFFER_SIZE).length
            = AudioPlayer.BUFFER_SIZE) ∧
        ((p.audioData.drop (AudioPlayer.BUFFER_SIZE * k)).take AudioPlayer.BUFFER_SIZE).length
          = r ∧
        ((submissions (e1 ++ e2)).map (fun s => s.2.2)).flatten = p.audioData ∧
        (∀ s ∈ submissions (e1 ++ e2), s.1 = true) ∧
        pf.enqueueBuffer = (pf, []) := by
  have hne : p.audioData ≠ [] := by
    intro h0
    rw [h0] at hlen
    simp only [List.length_nil] at hlen
    omega
  obtain ⟨p1, e1, hstart⟩ := startPlayback_succeeds p hw eng hidle hne heng hgood
  exact ⟨p1, e1, hstart, playback_run_of_start k r p p1 hw e1 hr0 hr hlen hstart⟩

/-- Witness of C4 on a store of `4096 + 3` samples (`k = 1`, `r = 3`): the start
submits the first 4096 samples, one callback submits the last 3 and clears the
flag. -/
theorem playback_termination_witness :
    ∃ (p1 : AudioPlayer) (e1 : List Effect) (pf : AudioPlayer) (e2 : List Effect),
      longPlayer.startPlayback goodPlayerHw = some (true, p1, e1) ∧
      AudioPlayer.runCallbacks 1 p1 = some (pf, e2, 1) ∧ pf.isPlaying = false ∧
      (submissions (e1 ++ e2)).map (fun s => (s.1, s.2.1, s.2.2.length))
        = [(true, 0, 4096), (true, 4096, 3)] ∧
      ((submissions (e1 ++ e2)).map (fun s => s.2.2)).flatten = longPlayer.audioData := by
  have hlen : longPlayer.audioData.length = AudioPlayer.BUFFER_SIZE * 1 + 3 := by
    simp [longPlayer, AudioPlayer.BUFFER_SIZE]
  obtain ⟨p1, e1, hstart, hrun⟩ :=
    playback_termination 1 3 longPlayer goodPlayerHw 2 (by decide) (by decide) hlen rfl rfl
      (by decide)
  obtain ⟨pf, e2, h1, h2, _, h4, _, h6, h7, h8, _⟩ := hrun 1 (le_refl 1)
  refine ⟨p1, e1, pf, e2, hstart, h1, h2, ?_, h8⟩
  have h60 := h6 0 (by decide)
  simp only [AudioPlayer.BUFFER_SIZE] at h4 h60 h7
  rw [h4]
  simp only [List.range_succ, List.range_zero, List.nil_append, List.cons_append, List.map_cons,
    List.map_nil, h60, h7]

/-! ## C5: when the playing flag is cleared -/

/-- C5, refuted as stated: the callback that submits the final chunk of a
three-sample store returns with `isPlaying` already false, and right after a
successful `startPlayback` on that store `isCurrentlyPlaying()` is false. -/
theorem final_chunk_clears_flag :
    activePlayer.enqueueBuffer =
      (⟨some 1, some 2, some 3, some 4, some 5, false, [7, 8, 9], 3⟩,
       [Effect.enqueueSamples 5 true 0 [7, 8, 9]]) ∧
    activePlayer.enqueueBuffer.1.isCurrentlyPlaying = false ∧
    loadedPlayer.startPlayback goodPlayerHw = some (true, startedPlayer, startedPlayerEffects) ∧
    startedPlayer.isCurrentlyPlaying = false := by
  decide

/-- C5, amended: for every Active player with `cursor < storeLength`, when a
callback submits the final chunk (the queue is held and at most `BUFFER_SIZE`
samples remain), the chunk is issued while the flag is set, the cursor becomes
`storeLength`, and the state is already Idle when that invocation returns; the
next callback submits nothing and leaves everything as it is.  A callback that
leaves samples unsubmitted keeps the state Active.  After a successful
`startPlayback` on a store of at most `BUFFER_SIZE` samples
`isCurrentlyPlaying()` is false. -/
theorem final_chunk_marks_idle (p : AudioPlayer) (q : Handle) (hp : p.isPlaying = true)
    (hq : p.playerBufferQueue = some q) (hc : p.currentPosition < p.audioData.length)
    (hlast : p.audioData.length - p.currentPosition ≤ AudioPlayer.BUFFER_SIZE) :
    p.enqueueBuffer.2 =
      [Effect.enqueueSamples q true p.currentPosition (p.audioData.drop p.currentPosition)] ∧
    p.enqueueBuffer.1.currentPosition = p.audioData.length ∧
    p.enqueueBuffer.1.isCurrentlyPlaying = false ∧
    p.enqueueBuffer.1.enqueueBuffer = (p.enqueueBuffer.1, []) ∧
    (∀ (a : AudioPlayer) (h : Handle), a.isPlaying = true → a.playerBufferQueue = some h →
      a.currentPosition + AudioPlayer.BUFFER_SIZE < a.audioData.length →
      a.enqueueBuffer.1.isCurrentlyPlaying = true) ∧
    (∀ (a a1 : AudioPlayer) (hw : PlayerStartHw) (e1 : List Effect),
      a.audioData.length ≤ AudioPlayer.BUFFER_SIZE →
      a.startPlayback hw = some (true, a1, e1) →
      a1.isCurrentlyPlaying = false ∧ submissions e1 = [(true, 0, a.audioData)]) := by
  simp only [AudioPlayer.BUFFER_SIZE] at hlast ⊢
  rw [enqueueBuffer_last p q hp hq hc hlast]
  refine ⟨rfl, rfl, rfl, enqueueBuffer_idle _ rfl, ?_, ?_⟩
  · intro a h ha hh hmore
    rw [enqueueBuffer_more a h ha hh hmore]
    exact ha
  · intro a a1 hw e1 hsmall hstart
    obtain ⟨_, hne, p9, e8, h, h9play, h9pos, h9data, h9q, he8, hp1, he1⟩ :=
      startPlayback_success a a1 hw e1 hstart
    have hpos : 0 < a.audioData.length := List.length_pos.mpr hne
    have h9 := enqueueBuffer_last p9 h h9play h9q (by rw [h9pos, h9data]; exact hpos)
      (by rw [h9pos, h9data]; omega)
    rw [hp1, he1, h9, submissions_append, he8, h9pos, h9data]
    exact ⟨rfl, rfl⟩

/-- Witness of C5 (amended) on the playing three-sample player. -/
theorem final_chunk_marks_idle_witness :
    activePlayer.enqueueBuffer.2 = [Effect.enqueueSamples 5 true 0 [7, 8, 9]] ∧
    activePlayer.enqueueBuffer.1.currentPosition = 3 ∧
    activePlayer.enqueueBuffer.1.isCurrentlyPlaying = false :=
  have h := final_chunk_marks_idle activePlayer 5 (by decide) (by decide) (by decide) (by decide)
  ⟨h.1, h.2.1, h.2.2.1⟩

/-! ## Recorder lemmas -/

theorem fileWrites_append (a b : List Effect) :
    fileWrites (a ++ b) = fileWrites a ++ fileWrites b := by
  induction a with
  | nil => rfl
  | cons x xs ih => cases x <;> simp [fileWrites, ih]

theorem stopRecording_active (s : AudioRecorder) (hwStop canOpen : Bool)
    (h : s.isRecording = true) :
    (s.stopRecording hwStop canOpen).1 = true ∧
    (s.stopRecording hwStop canOpen).2.1.isRecording = false ∧
    (s.stopRecording hwStop canOpen).2.1.recorderObject = none ∧
    fileWrites (s.stopRecording hwStop canOpen).2.2 =
      fileWrites (AudioRecorder.saveToFile { s with isRecording := false } canOpen) := by
  unfold AudioRecorder.stopRecording
  simp only [h, Bool.not_true, Bool.false_eq_true, if_false]
  cases hrec : s.recorderRecord <;> cases hobj : s.recorderObject <;>
    simp [fileWrites_append, fileWrites]

/-! ## C6: operations issued in the wrong state -/

/-- C6: with the flag set, `startRecording(path)` and `startPlayback()` return
false, leave the whole engine as it was and issue no effect; with the flag
clear, `stopRecording()` and `stopPlayback()` return false, leave the whole
engine as it was and issue no effect (no hardware call, no file write). -/
theorem wrong_state_rejected :
    (∀ (s : AudioRecorder) (path : String) (hw : RecorderStartHw), s.isRecording = true →
      s.startRecording path hw = some (false, s, [])) ∧
    (∀ (p : AudioPlayer) (hw : PlayerStartHw), p.isPlaying = true →
      p.startPlayback hw = some (false, p, [])) ∧
    (∀ (s : AudioRecorder) (hwStop canOpen : Bool), s.isRecording = false →
      s.stopRecording hwStop canOpen = (false, s, [])) ∧
    (∀ (p : AudioPlayer) (hwStop : Bool), p.isPlaying = false →
      p.stopPlayback hwStop = (false, p, [])) := by
  refine ⟨?_, ?_, ?_, ?_⟩
  · intro s path hw h
    simp [AudioRecorder.startRecording, h]
  · intro p hw h
    simp [AudioPlayer.startPlayback, h]
  · intro s hwStop canOpen h
    simp [AudioRecorder.stopRecording, h]
  · intro p hwStop h
    simp [AudioPlayer.stopPlayback, h]

/-- Witness of C6: a second start on the recording recorder and on the playing
player, and a stop on the idle recorder and on the idle player. -/
theorem wrong_state_rejected_witness :
    activeRecorder.startRecording "other.wav" goodRecorderHw = some (false, activeRecorder, []) ∧
    activePlayer.startPlayback goodPlayerHw = some (false, activePlayer, []) ∧
    idleRecorder.stopRecording true true = (false, idleRecorder, []) ∧
    loadedPlayer.stopPlayback true = (false, loadedPlayer, []) :=
  ⟨wrong_state_rejected.1 activeRecorder "other.wav" goodRecorderHw (by decide),
   wrong_state_rejected.2.1 activePlayer goodPlayerHw (by decide),
   wrong_state_rejected.2.2.1 idleRecorder true true (by decide),
   wrong_state_rejected.2.2.2 loadedPlayer true (by decide)⟩

/-! ## C7: what stopRecording returns -/

/-- C7, refuted as stated: on the recording recorder, with the hardware stop
request failing, `stopRecording()` issues the request and returns true. -/
theorem stop_returns_true_on_hardware_failure :
    (activeRecorder.stopRecording false true).1 = true ∧
    Effect.setRecordState 4 false ∈ (activeRecorder.stopRecording false true).2.2 ∧
    ¬ ((activeRecorder.stopRecording false true).1 = true ↔ false = true) := by
  decide

/-- C7, amended: for every Active capture engine `stopRecording()` returns
true, whether the hardware stop request succeeds or fails and whether the file
can be written or not; the engine is Idle afterwards. -/
theorem stop_returns_true (s : AudioRecorder) (hwStop canOpen : Bool)
    (h : s.isRecording = true) :
    (s.stopRecording hwStop canOpen).1 = true ∧
    (s.stopRecording hwStop canOpen).1 = (s.stopRecording (!hwStop) canOpen).1 ∧
    (s.stopRecording hwStop canOpen).1 = (s.stopRecording hwStop (!canOpen)).1 ∧
    (s.stopRecording hwStop canOpen).2.1.isCurrentlyRecording = false := by
  have h1 := stopRecording_active s hwStop canOpen h
  have h2 := stopRecording_active s (!hwStop) canOpen h
  have h3 := stopRecording_active s hwStop (!canOpen) h
  exact ⟨h1.1, by rw [h1.1, h2.1], by rw [h1.1, h3.1], h1.2.1⟩

/-- Witness of C7 (amended) on the recording recorder with a failing stop
request and a file that cannot be opened. -/
theorem stop_returns_true_witness :
    (activeRecorder.stopRecording false false).1 = true :=
  (stop_returns_true activeRecorder false false (by decide)).1

/-! ## C8: a failed start -/

/-- C8, the code at the failing input: on the idle recorder, with hardware that
creates the recorder object (handle 3) and fails to realize it,
`startRecording` returns false and the state is Idle, but the engine still
holds the object it created and no `Destroy` was issued; the next, successful
`startRecording` overwrites the handle, again without a `Destroy` of object 3. -/
theorem failed_start_keeps_recorder_object :
    idleRecorder.startRecording "out.wav" realizeFailsHw =
      some (false, failedStartRecorder, [Effect.createAudioRecorder 2, Effect.realize 3]) ∧
    failedStartRecorder.isCurrentlyRecording = false ∧
    failedStartRecorder.recorderObject = some 3 ∧
    failedStartRecorder.startRecording "out.wav" retryRecorderHw =
      some (true, ⟨some 1, some 2, some 7, some 8, some 9, true, [], "out.wav"⟩,
        [Effect.createAudioRecorder 2, Effect.realize 7,
         Effect.getInterface 7 InterfaceId.SL_IID_RECORD,
         Effect.getInterface 7 InterfaceId.SL_IID_ANDROIDSIMPLEBUFFERQUEUE,
         Effect.registerCallback 9, Effect.enqueueRecordBuffer 9,
         Effect.setRecordState 8 true]) := by
  decide

/-! ## C9: what loading reads -/

/-- C9: for every openable file with bytes `f` and every previous player state,
`loadAudioFile` replaces the store by the samples decoded from the bytes after
the first 44 (sample `i` from bytes `44+2i` and `45+2i`, `(|f|-44)/2` samples,
none when `|f| < 46`), depends on no byte of the header and on nothing of the
previous store, sets the cursor to 0, touches no other field, and returns
`false` exactly when the store is left empty. -/
theorem load_semantics (p : AudioPlayer) (f : List Nat) :
    (p.loadAudioFile (some f)).2.audioData.length = (f.length - 44) / 2 ∧
    (∀ i, i < (f.length - 44) / 2 →
      ∃ lo hi, f[44 + 2 * i]? = some lo ∧ f[45 + 2 * i]? = some hi ∧
        (p.loadAudioFile (some f)).2.audioData[i]? = some (shortOfBytes lo hi)) ∧
    (f.length < 46 → (p.loadAudioFile (some f)).2.audioData = []) ∧
    (p.loadAudioFile (some f)).2.currentPosition = 0 ∧
    ((p.loadAudioFile (some f)).1 = false ↔ (p.loadAudioFile (some f)).2.audioData.length = 0) ∧
    (∀ g : List Nat, g.drop 44 = f.drop 44 →
      p.loadAudioFile (some g) = p.loadAudioFile (some f)) ∧
    (∀ q : AudioPlayer,
      (q.loadAudioFile (some f)).2.audioData = (p.loadAudioFile (some f)).2.audioData) ∧
    (p.loadAudioFile (some f)).2 =
      { p with audioData := (p.loadAudioFile (some f)).2.audioData, currentPosition := 0 } := by
  have hlen : (AudioPlayer.readSamples (f.drop 44)).length = (f.length - 44) / 2 := by
    rw [readSamples_length, List.length_drop]
  refine ⟨hlen, ?_, ?_, rfl, ?_, ?_, fun q => rfl, rfl⟩
  · intro i hi
    have hi2 : i < (f.drop 44).length / 2 := by
      rw [List.length_drop]
      exact hi
    obtain ⟨lo, hi, h1, h2, h3⟩ := readSamples_getElem? (f.drop 44) i hi2
    refine ⟨lo, hi, ?_, ?_, h3⟩
    · rw [List.getElem?_drop] at h1
      exact h1
    · rw [List.getElem?_drop] at h2
      rw [show 45 + 2 * i = 44 + (2 * i + 1) by ring]
      exact h2
  · intro hshort
    apply List.eq_nil_of_length_eq_zero
    show (AudioPlayer.readSamples (f.drop 44)).length = 0
    rw [hlen]
    omega
  · show (!(AudioPlayer.readSamples (f.drop 44)).isEmpty) = false ↔
      (AudioPlayer.readSamples (f.drop 44)).length = 0
    cases h : AudioPlayer.readSamples (f.drop 44) <;> simp
  · intro g hg
    rw [loadAudioFile_some, loadAudioFile_some, hg]

/-! ## C10: what a capture session persists -/

theorem startRecording_success (s s1 : AudioRecorder) (path : String) (hw : RecorderStartHw)
    (e1 : List Effect) (h : s.startRecording path hw = some (true, s1, e1)) :
    s.isRecording = false ∧ s1.isRecording = true ∧ s1.audioBuffer = [] ∧
    s1.outputFilePath = path ∧ fileWrites e1 = [] := by
  have hidle : s.isRecording = false := by
    cases hs : s.isRecording
    · rfl
    · simp [AudioRecorder.startRecording, hs] at h
  refine ⟨hidle, ?_⟩
  unfold AudioRecorder.startRecording at h
  repeat' (split at h <;> try simp at h)
  obtain ⟨hs1, he1⟩ := h
  subst hs1
  subst he1
  exact ⟨rfl, rfl, rfl, rfl⟩

/-- On an idle, initialized recorder, whatever its accumulator holds, hardware
whose calls all succeed makes `startRecording` return true. -/
theorem startRecording_succeeds (s : AudioRecorder) (path : String) (hw : RecorderStartHw)
    (eng : Handle) (hidle : s.isRecording = false) (heng : s.engineEngine = some eng)
    (hgood : hw.allSucceed = true) :
    ∃ (s1 : AudioRecorder) (e1 : List Effect), s.startRecording path hw = some (true, s1, e1) := by
  obtain ⟨⟨crok, crout⟩, rl, ⟨grok, grout⟩, ⟨gqok, gqout⟩, rc, en, sr⟩ := hw
  simp only [RecorderStartHw.allSucceed, Bool.and_eq_true, Option.isSome_iff_exists] at hgood
  obtain ⟨⟨⟨⟨⟨⟨⟨⟨⟨h1, obj, h2⟩, h3⟩, h4⟩, rec, h5⟩, h6⟩, q, h7⟩, h8⟩, h9⟩, h10⟩ := hgood
  subst h1 h2 h3 h4 h5 h6 h7 h8 h9 h10
  simp [AudioRecorder.startRecording, hidle, heng]

theorem processAudioData_active (s : AudioRecorder) (b : List Int) (h : s.isRecording = true) :
    (s.processAudioData b).1 =
      { s with audioBuffer := s.audioBuffer ++ b.take AudioRecorder.BUFFER_SIZE } ∧
    fileWrites (s.processAudioData b).2 = [] := by
  unfold AudioRecorder.processAudioData
  simp only [h, Bool.not_true, Bool.false_eq_true, if_false, if_true]
  cases hq : s.recorderBufferQueue <;> simp [fileWrites]

theorem runCallbacks_active (bufs : List (List Int)) : ∀ (s : AudioRecorder),
    s.isRecording = true → (∀ b ∈ bufs, b.length = AudioRecorder.BUFFER_SIZE) →
    (AudioRecorder.runCallbacks s bufs).1 = { s with audioBuffer := s.audioBuffer ++ bufs.flatten } ∧
    fileWrites (AudioRecorder.runCallbacks s bufs).2 = [] := by
  induction bufs with
  | nil =>
    intro s _ _
    simp [AudioRecorder.runCallbacks, fileWrites]
  | cons b bs ih =>
    intro s hs hb
    obtain ⟨h1, h2⟩ := processAudioData_active s b hs
    have hlen : b.length = AudioRecorder.BUFFER_SIZE := hb b (List.mem_cons_self b bs)
    have htake : b.take AudioRecorder.BUFFER_SIZE = b := List.take_of_length_le (by omega)
    rw [htake] at h1
    obtain ⟨h3, h4⟩ := ih (s.processAudioData b).1 (by rw [h1]; exact hs)
      (fun c hc => hb c (List.mem_cons_of_mem b hc))
    refine ⟨?_, ?_⟩
    · show (AudioRecorder.runCallbacks (s.processAudioData b).1 bs).1 = _
      rw [h3, h1]
      simp
    · show fileWrites ((s.processAudioData b).2 ++
        (AudioRecorder.runCallbacks (s.processAudioData b).1 bs).2) = []
      rw [fileWrites_append, h2, h4]
      rfl

theorem flatten_length (bufs : List (List Int))
    (hb : ∀ b ∈ bufs, b.length = AudioRecorder.BUFFER_SIZE) :
    bufs.flatten.length = 4096 * bufs.length := by
  induction bufs with
  | nil => rfl
  | cons b bs ih =>
    have h1 : b.length = 4096 := hb b (List.mem_cons_self b bs)
    have h2 := ih (fun c hc => hb c (List.mem_cons_of_mem b hc))
    simp only [List.flatten_cons, List.length_append, List.length_cons, h1, h2]
    omega

theorem samplesBytes_length (xs : List Int) : (samplesBytes xs).length = 2 * xs.length := by
  induction xs with
  | nil => rfl
  | cons x xs ih =>
    simp only [samplesBytes, shortBytes, List.length_append, rawBytes_length, ih,
      List.length_cons]
    omega

/-- What a session writes: the effects of the stop that follows a successful
start and one callback per scratch-buffer content. -/
theorem capture_run (s s1 : AudioRecorder) (path : String) (hw : RecorderStartHw)
    (e1 : List Effect) (bufs : List (List Int)) (hwStop canOpen : Bool)
    (hstart : s.startRecording path hw = some (true, s1, e1))
    (hbufs : ∀ b ∈ bufs, b.length = AudioRecorder.BUFFER_SIZE) :
    ((AudioRecorder.runCallbacks s1 bufs).1.stopRecording hwStop canOpen).1 = true ∧
    fileWrites (e1 ++ (AudioRecorder.runCallbacks s1 bufs).2) = [] ∧
    fileWrites ((AudioRecorder.runCallbacks s1 bufs).1.stopRecording hwStop canOpen).2.2 =
      (if bufs = [] ∨ canOpen = false then []
       else [(path, AudioRecorder.writeWavHeader (4096 * bufs.length)
                      ++ samplesBytes bufs.flatten)]) := by
  obtain ⟨_, hrec, hbuf, hpath, hfw⟩ := startRecording_success s s1 path hw e1 hstart
  obtain ⟨hrun, hrunfw⟩ := runCallbacks_active bufs s1 hrec hbufs
  have hactive : (AudioRecorder.runCallbacks s1 bufs).1.isRecording = true := by
    rw [hrun]
    exact hrec
  obtain ⟨hret, _, _, hstop⟩ :=
    stopRecording_active (AudioRecorder.runCallbacks s1 bufs).1 hwStop canOpen hactive
  refine ⟨hret, by rw [fileWrites_append, hfw, hrunfw]; rfl, ?_⟩
  rw [hstop, hrun]
  have hlen := flatten_length bufs hbufs
  cases bufs with
  | nil => simp [AudioRecorder.saveToFile, hbuf, fileWrites]
  | cons b bs =>
    have hne : (b :: bs).flatten ≠ [] := by
      intro h0
      rw [h0] at hlen
      simp at hlen
    cases canOpen
    · simp [AudioRecorder.saveToFile, fileWrites]
    · simp only [AudioRecorder.saveToFile, hbuf, List.nil_append, List.isEmpty_eq_true, hne,
        if_false, Bool.not_true, Bool.false_eq_true, fileWrites, AudioRecorder.fileImage, hlen,
        hpath]
      simp

theorem startRecording_good :
    idleRecorder.startRecording "out.wav" goodRecorderHw =
      some (true, startedRecorder, startedRecorderEffects) := by
  decide

theorem replicate_buffers (m : Nat) (x : Int) :
    ∀ b ∈ List.replicate m (List.replicate 4096 x), b.length = AudioRecorder.BUFFER_SIZE := by
  intro b hb
  rw [List.eq_of_mem_replicate hb, List.length_replicate]
  rfl

/-- C10, refuted as stated: after a successful start and one callback, a stop
whose destination cannot be opened writes no file; and after `2^19` callbacks
the file written declares 0 data bytes in its header while `2^32` payload bytes
follow it. -/
theorem capture_write_exceptions :
    fileWrites ((AudioRecorder.runCallbacks startedRecorder
        (List.replicate 1 (List.replicate 4096 0))).1.stopRecording true false).2.2 = [] ∧
    ∃ payload : List Nat,
      fileWrites ((AudioRecorder.runCallbacks startedRecorder
          (List.replicate 524288 (List.replicate 4096 0))).1.stopRecording true true).2.2 =
        [("out.wav", AudioRecorder.writeWavHeader 2147483648 ++ payload)] ∧
      payload.length = 4294967296 ∧
      headerDataBytes (AudioRecorder.writeWavHeader 2147483648) = 0 := by
  refine ⟨?_, samplesBytes (List.replicate 524288 (List.replicate 4096 0)).flatten, ?_, ?_, ?_⟩
  · rw [(capture_run idleRecorder startedRecorder "out.wav" goodRecorderHw startedRecorderEffects
      _ true false startRecording_good (replicate_buffers 1 0)).2.2]
    rw [if_pos (Or.inr rfl)]
  · rw [(capture_run idleRecorder startedRecorder "out.wav" goodRecorderHw startedRecorderEffects
      _ true true startRecording_good (replicate_buffers 524288 0)).2.2]
    have hne : ¬ (List.replicate 524288 (List.replicate 4096 (0 : Int)) = [] ∨ true = false) := by
      intro h
      rcases h with h | h
      · have := congrArg List.length h
        rw [List.length_replicate] at this
        exact absurd this (by norm_num)
      · exact absurd h (by decide)
    rw [if_neg hne, List.length_replicate]
  · rw [samplesBytes_length, flatten_length _ (replicate_buffers 524288 0),
      List.length_replicate]
  · rw [headerDataBytes_eq]
    norm_num

/-- C10, amended: a successful `startRecording(path)`, then one callback per
scratch-buffer content `b_1..b_m` (each of `BUFFER_SIZE` samples), then
`stopRecording()`: the stop returns true; nothing is written before the stop;
with `m = 0`, or when the destination cannot be opened, no file is written;
with `m >= 1` and an openable destination the stop writes to `path` exactly the
header for `4096*m` samples followed by the little-endian bytes of
`b_1 ++ ... ++ b_m`, `44 + 8192*m` bytes in all; the declared data size is
`8192*m mod 2^32`, which is the number of payload bytes whenever
`8192*m < 2^32`.  A callback on an Idle recorder changes nothing. -/
theorem capture_persists (s s1 : AudioRecorder) (path : String) (hw : RecorderStartHw)
    (e1 : List Effect) (bufs : List (List Int)) (hwStop canOpen : Bool)
    (hstart : s.startRecording path hw = some (true, s1, e1))
    (hbufs : ∀ b ∈ bufs, b.length = AudioRecorder.BUFFER_SIZE) :
    ((AudioRecorder.runCallbacks s1 bufs).1.stopRecording hwStop canOpen).1 = true ∧
    fileWrites (e1 ++ (AudioRecorder.runCallbacks s1 bufs).2) = [] ∧
    (bufs = [] →
      fileWrites ((AudioRecorder.runCallbacks s1 bufs).1.stopRecording hwStop canOpen).2.2 = []) ∧
    (canOpen = false →
      fileWrites ((AudioRecorder.runCallbacks s1 bufs).1.stopRecording hwStop canOpen).2.2 = []) ∧
    (bufs ≠ [] → canOpen = true →
      fileWrites ((AudioRecorder.runCallbacks s1 bufs).1.stopRecording hwStop canOpen).2.2 =
        [(path, AudioRecorder.writeWavHeader (AudioRecorder.BUFFER_SIZE * bufs.length)
                  ++ samplesBytes bufs.flatten)]) ∧
    (AudioRecorder.writeWavHeader (AudioRecorder.BUFFER_SIZE * bufs.length)
      ++ samplesBytes bufs.flatten).length = 44 + 8192 * bufs.length ∧
    headerDataBytes (AudioRecorder.writeWavHeader (AudioRecorder.BUFFER_SIZE * bufs.length))
      = (8192 * bufs.length) % 2 ^ 32 ∧
    (8192 * bufs.length < 2 ^ 32 →
      headerDataBytes (AudioRecorder.writeWavHeader (AudioRecorder.BUFFER_SIZE * bufs.length))
        = (samplesBytes bufs.flatten).length) ∧
    (∀ (t : AudioRecorder) (b : List Int), t.isRecording = false →
      t.processAudioData b = (t, [])) := by
  obtain ⟨hret, hpre, hstop⟩ := capture_run s s1 path hw e1 bufs hwStop canOpen hstart hbufs
  have hpay : (samplesBytes bufs.flatten).length = 8192 * bufs.length := by
    rw [samplesBytes_length, flatten_length bufs hbufs]
    omega
  have hdecl : headerDataBytes
      (AudioRecorder.writeWavHeader (AudioRecorder.BUFFER_SIZE * bufs.length))
      = (8192 * bufs.length) % 2 ^ 32 := by
    rw [headerDataBytes_eq]
    simp only [AudioRecorder.BUFFER_SIZE]
    congr 1
    omega
  refine ⟨hret, hpre, ?_, ?_, ?_, ?_, hdecl, ?_, ?_⟩
  · intro h
    rw [hstop, if_pos (Or.inl h)]
  · intro h
    rw [hstop, if_pos (Or.inr h)]
  · intro h1 h2
    rw [hstop, if_neg (by rw [h2]; simp [h1])]
    rfl
  · rw [List.length_append, writeWavHeader_length, hpay]
  · intro hsmall
    rw [hdecl, hpay, Nat.mod_eq_of_lt hsmall]
  · intro t b ht
    simp [AudioRecorder.processAudioData, ht]

/-- Witness of C10 (amended): one callback after a successful start, then a stop
with an openable destination. -/
theorem capture_persists_witness :
    fileWrites ((AudioRecorder.runCallbacks startedRecorder
        [List.replicate 4096 7]).1.stopRecording true true).2.2 =
      [("out.wav", AudioRecorder.writeWavHeader (AudioRecorder.BUFFER_SIZE * 1)
                     ++ samplesBytes [List.replicate 4096 (7 : Int)].flatten)] :=
  (capture_persists idleRecorder startedRecorder "out.wav" goodRecorderHw startedRecorderEffects
    [List.replicate 4096 7] true true startRecording_good (replicate_buffers 1 7)).2.2.2.2.1
    (List.cons_ne_nil _ _) rfl

/-! ## C11: callbacks interleaved with one stopRecording -/

/-- The application thread alone takes `stopRecording` from call to return in
seven steps, with the result, the engine and the effects of the sequential
embedding. -/
theorem Session.application_alone (s : AudioRecorder) (hwStop canOpen : Bool) :
    (Session.run canOpen (Session.init s)
      [Tick.application, Tick.application, Tick.application, Tick.application,
       Tick.application, Tick.application, Tick.application]).appPc
      = AppPc.returned (s.stopRecording hwStop canOpen).1 ∧
    (Session.run canOpen (Session.init s)
      [Tick.application, Tick.application, Tick.application, Tick.application,
       Tick.application, Tick.application, Tick.application]).recorder
      = (s.stopRecording hwStop canOpen).2.1 ∧
    (Session.run canOpen (Session.init s)
      [Tick.application, Tick.application, Tick.application, Tick.application,
       Tick.application, Tick.application, Tick.application]).effects
      = (s.stopRecording hwStop canOpen).2.2 := by
  obtain ⟨eo, ee, ro, rr, rq, isRec, buf, path⟩ := s
  cases isRec <;> cases rr <;> cases ro <;>
    simp [Session.run, Session.tick, Session.applicationStep, Session.init,
      AudioRecorder.stopRecording]

/-- The hardware thread alone takes one invocation of the callback from call to
return in six moves, with the engine and the effects of the sequential
embedding. -/
theorem Session.hardware_alone (s : AudioRecorder) (b : List Int) (canOpen : Bool) :
    (Session.run canOpen (Session.init s)
      [Tick.callback b, Tick.hardware, Tick.hardware, Tick.hardware, Tick.hardware,
       Tick.hardware]).hwPc = HwPc.idle ∧
    (Session.run canOpen (Session.init s)
      [Tick.callback b, Tick.hardware, Tick.hardware, Tick.hardware, Tick.hardware,
       Tick.hardware]).recorder = (s.processAudioData b).1 ∧
    (Session.run canOpen (Session.init s)
      [Tick.callback b, Tick.hardware, Tick.hardware, Tick.hardware, Tick.hardware,
       Tick.hardware]).effects = (s.processAudioData b).2 := by
  obtain ⟨eo, ee, ro, rr, rq, isRec, buf, path⟩ := s
  cases isRec <;> cases rq <;>
    simp [Session.run, Session.tick, Session.invoke, Session.hardwareStep, Session.init,
      AudioRecorder.processAudioData]

theorem enqueueBuffer_cursor (p : AudioPlayer) :
    p.enqueueBuffer.1.audioData = p.audioData ∧
    p.currentPosition ≤ p.enqueueBuffer.1.currentPosition ∧
    (p.currentPosition ≤ p.audioData.length →
      p.enqueueBuffer.1.currentPosition ≤ p.audioData.length) := by
  by_cases hp : p.isPlaying = true
  · by_cases hc : p.currentPosition < p.audioData.length
    · cases hq : p.playerBufferQueue with
      | none =>
        have hnot : ¬ (p.currentPosition ≥ p.audioData.length) := by omega
        simp [AudioPlayer.enqueueBuffer, hp, hq, hnot]
      | some q =>
        rw [enqueueBuffer_active p q hp hq hc]
        refine ⟨rfl, ?_, fun _ => ?_⟩
        · show p.currentPosition ≤ p.currentPosition + _
          omega
        · show p.currentPosition + min 4096 (p.audioData.length - p.currentPosition) ≤ _
          omega
    · have hge : p.currentPosition ≥ p.audioData.length := by omega
      simp [AudioPlayer.enqueueBuffer, hge]
  · have hf : p.isPlaying = false := by
      cases h : p.isPlaying
      · rfl
      · exact absurd h hp
    rw [enqueueBuffer_idle p hf]
    exact ⟨rfl, le_refl _, fun h => h⟩

theorem startPlayback_failure (p p1 : AudioPlayer) (hw : PlayerStartHw) (e1 : List Effect)
    (h : p.startPlayback hw = some (false, p1, e1)) :
    p1.audioData = p.audioData ∧ p1.currentPosition = p.currentPosition ∧
    p1.isPlaying = p.isPlaying ∧ submissions e1 = [] := by
  unfold AudioPlayer.startPlayback at h
  repeat' (split at h <;> try simp at h)
  all_goals (obtain ⟨hp1, he1⟩ := h; subst hp1; subst he1; exact ⟨rfl, rfl, rfl, rfl⟩)

theorem initialize_cursor (p p1 : AudioPlayer) (hw : EngineInitHw) (b : Bool)
    (h : AudioPlayer.initialize p hw = some (b, p1)) :
    p1.audioData = p.audioData ∧ p1.currentPosition = p.currentPosition := by
  unfold AudioPlayer.initialize at h
  repeat' (split at h <;> try simp at h)
  all_goals (obtain ⟨_, hp1⟩ := h; subst hp1; exact ⟨rfl, rfl⟩)

theorem loadAudioFile_cursor (p : AudioPlayer) (file : Option (List Nat))
    (hinv : p.currentPosition ≤ p.audioData.length) :
    (p.loadAudioFile file).2.currentPosition ≤ (p.loadAudioFile file).2.audioData.length := by
  cases file with
  | none => exact hinv
  | some f => exact Nat.zero_le _

theorem stopPlayback_cursor (p : AudioPlayer) (hwStop : Bool) :
    (p.stopPlayback hwStop).2.1.audioData = p.audioData ∧
    (p.stopPlayback hwStop).2.1.currentPosition = p.currentPosition := by
  unfold AudioPlayer.stopPlayback
  cases p.isPlaying <;> cases p.playerObject <;> exact ⟨rfl, rfl⟩

theorem step_cursor (p p1 : AudioPlayer) (s : PlayerStep) (h : p.step s = some p1)
    (hinv : p.currentPosition ≤ p.audioData.length) :
    p1.currentPosition ≤ p1.audioData.length := by
  cases s with
  | init hw =>
    simp only [AudioPlayer.step, Option.map_eq_some'] at h
    obtain ⟨⟨b, p2⟩, hp2, rfl⟩ := h
    obtain ⟨h1, h2⟩ := initialize_cursor p p2 hw b hp2
    show p2.currentPosition ≤ p2.audioData.length
    rw [h1, h2]
    exact hinv
  | loadAudioFile file =>
    simp only [AudioPlayer.step, Option.some.injEq] at h
    rw [← h]
    exact loadAudioFile_cursor p file hinv
  | startPlayback hw =>
    simp only [AudioPlayer.step, Option.map_eq_some'] at h
    obtain ⟨⟨b, p2, e2⟩, hp2, rfl⟩ := h
    show p2.currentPosition ≤ p2.audioData.length
    cases b with
    | false =>
      obtain ⟨h1, h2, _, _⟩ := startPlayback_failure p p2 hw e2 hp2
      rw [h1, h2]
      exact hinv
    | true =>
      obtain ⟨_, _, p9, e8, q, _, h9pos, _, _, _, hp1, _⟩ :=
        startPlayback_success p p2 hw e2 hp2
      obtain ⟨ha, _, hc⟩ := enqueueBuffer_cursor p9
      rw [hp1, ha]
      exact hc (by rw [h9pos]; exact Nat.zero_le _)
  | callback =>
    simp only [AudioPlayer.step, Option.some.injEq] at h
    obtain ⟨ha, _, hc⟩ := enqueueBuffer_cursor p
    rw [← h, ha]
    exact hc hinv
  | stopPlayback hwStop =>
    simp only [AudioPlayer.step, Option.some.injEq] at h
    obtain ⟨h1, h2⟩ := stopPlayback_cursor p hwStop
    rw [← h, h1, h2]
    exact hinv

theorem run_cursor (steps : List PlayerStep) : ∀ (p p1 : AudioPlayer),
    AudioPlayer.run p steps = some p1 → p.currentPosition ≤ p.audioData.length →
    p1.currentPosition ≤ p1.audioData.length := by
  induction steps with
  | nil =>
    intro p p1 h hinv
    simp only [AudioPlayer.run, Option.some.injEq] at h
    rw [← h]
    exact hinv
  | cons s ss ih =>
    intro p p1 h hinv
    rw [AudioPlayer.run] at h
    cases hs : p.step s with
    | none => simp [hs] at h
    | some p2 =>
      rw [hs] at h
      exact ih p2 p1 h (step_cursor p p2 s hs hinv)

theorem enqueueBuffer_effects (p : AudioPlayer) :
    p.enqueueBuffer.2 = [] ∨
    ∃ q, p.currentPosition < p.audioData.length ∧
      p.enqueueBuffer.2 = [Effect.enqueueSamples q true p.currentPosition
        ((p.audioData.drop p.currentPosition).take
          (min 4096 (p.audioData.length - p.currentPosition)))] := by
  by_cases hp : p.isPlaying = true
  · by_cases hc : p.currentPosition < p.audioData.length
    · cases hq : p.playerBufferQueue with
      | none =>
        have hnot : ¬ (p.currentPosition ≥ p.audioData.length) := by omega
        left
        simp [AudioPlayer.enqueueBuffer, hp, hq, hnot]
      | some q =>
        right
        exact ⟨q, hc, by rw [enqueueBuffer_active p q hp hq hc]⟩
    · have hge : p.currentPosition ≥ p.audioData.length := by omega
      left
      simp [AudioPlayer.enqueueBuffer, hge]
  · have hf : p.isPlaying = false := by
      cases h : p.isPlaying
      · rfl
      · exact absurd h hp
    left
    rw [enqueueBuffer_idle p hf]

/-- C12: in every player state reached from a freshly constructed engine by any
sequence of `initialize`, `loadAudioFile`, `startPlayback`, callback and
`stopPlayback` steps, the cursor is at most the store length; a callback never
decreases the cursor and leaves it at most the store length; a successful
`startPlayback` submits its first chunk at offset 0, whatever the cursor was;
and every slice a callback submits starts at the cursor, has
`min(BUFFER_SIZE, storeLength - cursor)` samples, is non-empty and ends inside
the store. -/
theorem cursor_invariant (steps : List PlayerStep) (p : AudioPlayer)
    (hreach : AudioPlayer.run AudioPlayer.fresh steps = some p) :
    p.currentPosition ≤ p.audioData.length ∧
    p.currentPosition ≤ p.enqueueBuffer.1.currentPosition ∧
    p.enqueueBuffer.1.currentPosition ≤ p.enqueueBuffer.1.audioData.length ∧
    (∀ (hw : PlayerStartHw) (p1 : AudioPlayer) (e1 : List Effect),
      p.startPlayback hw = some (true, p1, e1) →
      submissions e1 =
        [(true, 0, p.audioData.take (min AudioPlayer.BUFFER_SIZE p.audioData.length))]) ∧
    (∀ (q : Handle) (flag : Bool) (offset : Nat) (samples : List Int),
      Effect.enqueueSamples q flag offset samples ∈ p.enqueueBuffer.2 →
      offset = p.currentPosition ∧
      samples = (p.audioData.drop p.currentPosition).take
        (min AudioPlayer.BUFFER_SIZE (p.audioData.length - p.currentPosition)) ∧
      samples.length = min AudioPlayer.BUFFER_SIZE (p.audioData.length - p.currentPosition) ∧
      0 < samples.length ∧
      p.currentPosition + samples.length ≤ p.audioData.length) := by
  have hinv : p.currentPosition ≤ p.audioData.length :=
    run_cursor steps AudioPlayer.fresh p hreach (Nat.zero_le _)
  obtain ⟨hdata, hmono, hstay⟩ := enqueueBuffer_cursor p
  refine ⟨hinv, hmono, by rw [hdata]; exact hstay hinv, ?_, ?_⟩
  · intro hw p1 e1 hstart
    obtain ⟨_, hne, p9, e8, q, h9play, h9pos, h9data, h9q, he8, _, he1⟩ :=
      startPlayback_success p p1 hw e1 hstart
    have hpos : 0 < p.audioData.length := List.length_pos.mpr hne
    rw [he1, submissions_append, he8,
      enqueueBuffer_active p9 q h9play h9q (by rw [h9pos, h9data]; exact hpos), h9pos, h9data]
    simp [submissions, AudioPlayer.BUFFER_SIZE]
  · intro q flag offset samples hmem
    simp only [AudioPlayer.BUFFER_SIZE]
    rcases enqueueBuffer_effects p with h0 | ⟨q1, hc, h1⟩
    · rw [h0] at hmem
      simp at hmem
    · rw [h1] at hmem
      simp only [List.mem_singleton, Effect.enqueueSamples.injEq] at hmem
      obtain ⟨_, _, hoff, hsam⟩ := hmem
      have hlen : samples.length = min 4096 (p.audioData.length - p.currentPosition) := by
        rw [hsam, List.length_take, List.length_drop]
        omega
      refine ⟨hoff, hsam, hlen, ?_, ?_⟩ <;> omega

/-- Witness of C12: the state after a whole session on a three-sample file. -/
theorem cursor_invariant_witness :
    AudioPlayer.run AudioPlayer.fresh exampleSession = some startedPlayer ∧
    startedPlayer.currentPosition ≤ startedPlayer.audioData.length :=
  ⟨by decide, (cursor_invariant exampleSession startedPlayer (by decide)).1⟩
